import Mathlib

/-!
# Verification of the social-memory plugin core (src/plugin.py)

Shallow embedding of the plugin's data model and the operations that the
specification talks about: the affection ledger (`UserAffection.add_event`,
`UserAffection.get_tier`, `record_affection_event` with the bond-unlock
loop), the memory store (`record_user_memory`, `query_user_memory`,
`search_user_memory`, `get_user_summary`), the context renderer
(`social_memory_prompt_inject`) and the persistence round trip
(pydantic `model_dump_json` / `model_validate_json` over the declared
fields of `SocialData`).

Python `dict` values are embedded as association lists in insertion order
(`alistInsert` updates an existing key in place and appends a fresh key,
exactly the observable behaviour of a Python dict).  Python machine-free
integers are `Int`.  Wall-clock reads (`time.time()`) are passed in as an
explicit `now : Int` argument; the md5-based fresh-id generator
(`generate_id`) is passed in as an explicit `fresh_id : String` argument.
-/

namespace SocialMemory

/-- Python `max(lo, min(hi, v))`. -/
def clamp (lo hi v : Int) : Int := max lo (min hi v)

/-- Python list slice `l[start:]` (single signed start index, full tail).
For `start < 0` it starts at `len(l) + start` (clamped below at 0), for
`start ≥ 0` it starts at `start` (an over-long start yields `[]`). -/
def pySliceFrom (l : List α) (start : Int) : List α :=
  if start < 0 then l.drop ((l.length : Int) + start).toNat
  else l.drop start.toNat

/-- Python list slice `l[:stop]` (single signed stop index, initial part). -/
def pySliceTo (l : List α) (stop : Int) : List α :=
  if 0 ≤ stop then l.take stop.toNat
  else l.take ((l.length : Int) + stop).toNat

/-- Python string repetition `s * n` (a non-positive count yields `""`). -/
def pyRepeat (s : String) (n : Int) : String :=
  String.join (List.replicate n.toNat s)

/-- Association-list lookup: first binding of key `k` (Python `d[k]` /
`d.get(k)` on the insertion-ordered pair list). -/
def alistLookup (l : List (String × β)) (k : String) : Option β :=
  (l.find? (fun p => p.1 == k)).map (·.2)

/-- Python `k in d`. -/
def alistContains (l : List (String × β)) (k : String) : Bool :=
  (l.find? (fun p => p.1 == k)).isSome

/-- Python `d[k] = v`: update the existing binding in place (keeping its
position) or append a new binding at the end. -/
def alistInsert (l : List (String × β)) (k : String) (v : β) : List (String × β) :=
  match l with
  | [] => [(k, v)]
  | (k', v') :: rest =>
    if k' == k then (k, v) :: rest else (k', v') :: alistInsert rest k v

/-- Relationship tiers (`AffectionTier` enum). -/
inductive AffectionTier where
  | enemy
  | stranger
  | acquaintance
  | friend
  | close_friend
  | soulmate
deriving DecidableEq, Repr

/-- `AffectionEvent` model (src/plugin.py lines 281-303). -/
structure AffectionEvent where
  timestamp : Int
  change_amount : Int
  event_type : String
  description : String
  context : Option String
deriving DecidableEq, Repr

/-- `BondStatus` model (src/plugin.py lines 306-314). -/
structure BondStatus where
  bond_id : String
  unlocked : Bool := false
  unlock_time : Int := 0
deriving DecidableEq, Repr

/-- `BondStatus.create` (src/plugin.py lines 312-314). -/
def BondStatus.create (bond_id : String) : BondStatus :=
  { bond_id := bond_id }

/-- `UserAffection` model (src/plugin.py lines 317-326). -/
structure UserAffection where
  user_id : String
  affection_value : Int := 0
  total_positive : Int := 0
  total_negative : Int := 0
  first_met_time : Int := 0
  last_interaction_time : Int := 0
  events : List AffectionEvent := []
  bonds : List (String × BondStatus) := []
deriving DecidableEq, Repr

/-- `UserAffection.create` (src/plugin.py lines 328-340). -/
def UserAffection.create (user_id : String) (initial_affection : Int) (now : Int) :
    UserAffection :=
  { user_id := user_id
    affection_value := initial_affection
    first_met_time := now
    last_interaction_time := now }

/-- `UserAffection.add_event` (src/plugin.py lines 342-349): append the
event, keep the Python slice `events[-max_events:]`, stamp the last
interaction time, and accumulate the positive / negative totals. -/
def UserAffection.add_event (ua : UserAffection) (event : AffectionEvent)
    (max_events : Int) : UserAffection :=
  let evs := pySliceFrom (ua.events ++ [event]) (-max_events)
  { ua with
    events := evs
    last_interaction_time := event.timestamp
    total_positive :=
      if event.change_amount > 0 then ua.total_positive + event.change_amount
      else ua.total_positive
    total_negative :=
      if event.change_amount > 0 then ua.total_negative
      else if event.change_amount < 0 then ua.total_negative + (-event.change_amount)
      else ua.total_negative }

/-- `UserAffection.get_tier` (src/plugin.py lines 351-363). -/
def UserAffection.get_tier (ua : UserAffection) : AffectionTier :=
  let value := ua.affection_value
  if value ≥ 81 then .soulmate
  else if value ≥ 51 then .close_friend
  else if value ≥ 11 then .friend
  else if value ≥ -19 then .acquaintance
  else if value ≥ -59 then .stranger
  else .enemy

/-- `UserAffection.get_unlocked_bonds` (src/plugin.py lines 365-366). -/
def UserAffection.get_unlocked_bonds (ua : UserAffection) : List String :=
  (ua.bonds.filter (fun p => p.2.unlocked)).map (·.1)

/-- `UserMemory` model (src/plugin.py lines 369-378). -/
structure UserMemory where
  memory_id : String
  memory_type : String
  content : String
  importance : Int := 5
  source_chat_key : String
  created_at : Int
  expires_at : Int
  tags : List String := []
deriving DecidableEq, Repr

/-- `UserMemory.create` (src/plugin.py lines 380-401): clamps the
importance into [0,10] and derives `expires_at` from the retention
window; Python `tags or []` keeps `[]` for an absent argument. -/
def UserMemory.create (memory_id memory_type content source_chat_key : String)
    (importance : Int) (retention_days : Int) (tags : Option (List String))
    (now : Int) : UserMemory :=
  { memory_id := memory_id
    memory_type := memory_type
    content := content
    importance := max 0 (min 10 importance)
    source_chat_key := source_chat_key
    created_at := now
    expires_at := now + retention_days * 24 * 60 * 60
    tags := tags.getD [] }

/-- `UserMemory.is_expired` (src/plugin.py lines 403-404):
`time.time() > expires_at` with the current time passed explicitly. -/
def UserMemory.is_expired (m : UserMemory) (now : Int) : Bool :=
  now > m.expires_at

/-- `SocialData` model (src/plugin.py lines 407-417). -/
structure SocialData where
  affection : UserAffection
  memories : List (String × UserMemory) := []
deriving DecidableEq, Repr

/-- `SocialData.create` (src/plugin.py lines 412-417). -/
def SocialData.create (user_id : String) (initial_affection : Int) (now : Int) :
    SocialData :=
  { affection := UserAffection.create user_id initial_affection now
    memories := [] }

/-- `SocialMemoryConfig` (src/plugin.py lines 156-269), with the source's
default values. -/
structure SocialMemoryConfig where
  RETENTION_DAYS : Int := 30
  MAX_INJECTED_MEMORIES : Int := 5
  MIN_IMPORTANCE_SCORE : Int := 5
  DEFAULT_AFFECTION : Int := 0
  MAX_HISTORY_EVENTS : Int := 20
  ENABLE_BOND_SYSTEM : Bool := true
  AFFECTION_PROMPT_LIMIT : Int := 3
deriving DecidableEq, Repr

/-- `BOND_DEFINITIONS` (src/plugin.py lines 424-431):
(bond_id, display name, condition string). -/
def BOND_DEFINITIONS : List (String × String × String) :=
  [("first_meet", "初次相遇", "always"),
   ("shared_laugh", "欢笑共鸣", "event_count_positive >= 5"),
   ("deep_conversation", "深入交流", "event_count_positive >= 10"),
   ("trusted_confidant", "信赖倾诉", "event_count_positive >= 20"),
   ("storm_together", "共渡难关", "event_type_crisis >= 3"),
   ("heart_to_heart", "心心相印", "affection >= 80")]

/-- Count of crisis events with positive change (src/plugin.py line 615
and line 692). -/
def crisisCount (events : List AffectionEvent) : Nat :=
  (events.filter (fun e => e.event_type == "crisis" && e.change_amount > 0)).length

/-- The string-keyed condition dispatch of the bond-unlock check
(src/plugin.py lines 604-616), evaluated against the current ledger
fields. -/
def evalCondition (aff : UserAffection) (cond : String) : Bool :=
  if cond == "always" then true
  else if cond == "affection >= 80" then aff.affection_value ≥ 80
  else if cond == "event_count_positive >= 5" then aff.total_positive ≥ 5
  else if cond == "event_count_positive >= 10" then aff.total_positive ≥ 10
  else if cond == "event_count_positive >= 20" then aff.total_positive ≥ 20
  else if cond == "event_type_crisis >= 3" then crisisCount aff.events ≥ 3
  else false

/-- Result dictionary of `record_affection_event` (src/plugin.py
lines 625-631). -/
structure RecordAffectionResult where
  success : Bool
  new_affection : Int
  tier_changed : Bool
  new_tier : AffectionTier
  unlocked_bonds : List String
deriving DecidableEq, Repr

/-- The lazy status creation shared by `record_affection_event` and
`get_bond_info` (src/plugin.py lines 596-597 and 674-675): if the bond
has no status yet, create a locked one. -/
def ensure_bond (aff : UserAffection) (bond_id : String) : UserAffection :=
  if alistContains aff.bonds bond_id then aff
  else { aff with bonds := alistInsert aff.bonds bond_id (BondStatus.create bond_id) }

/-- One iteration of the bond-unlock for-loop of
`record_affection_event` (src/plugin.py lines 596-621): lazily create a
locked status, then, if still locked and the condition holds on the
current ledger fields, unlock it with the current time and report it. -/
def bond_step (now : Int) (bond_id cond : String) (aff : UserAffection)
    (unlocked_bonds : List String) : UserAffection × List String :=
  let aff := ensure_bond aff bond_id
  let status := (alistLookup aff.bonds bond_id).getD (BondStatus.create bond_id)
  if status.unlocked then (aff, unlocked_bonds)
  else if evalCondition aff cond then
    let status := { status with unlocked := true, unlock_time := now }
    ({ aff with bonds := alistInsert aff.bonds bond_id status },
     unlocked_bonds ++ [bond_id])
  else (aff, unlocked_bonds)

/-- The bond-unlock for-loop of `record_affection_event` (src/plugin.py
lines 595-621), one `bond_step` per catalog entry. -/
def bond_loop (now : Int) (defs : List (String × String × String))
    (aff : UserAffection) (unlocked_bonds : List String) :
    UserAffection × List String :=
  match defs with
  | [] => (aff, unlocked_bonds)
  | (bond_id, _, cond) :: rest =>
    bond_loop now rest (bond_step now bond_id cond aff unlocked_bonds).1
      (bond_step now bond_id cond aff unlocked_bonds).2

/-- `record_affection_event` (src/plugin.py lines 572-631): clamp the
change to [-20,20], append the event (trimming history), clamp the
affection value to [-100,100], and — only when the bond system is
enabled — run the bond-unlock loop.  The wall clock is the explicit
`now`; the final `save_social_data` persists the returned state. -/
def record_affection_event (cfg : SocialMemoryConfig) (s : SocialData)
    (change_amount : Int) (event_type description : String)
    (context : Option String) (now : Int) :
    SocialData × RecordAffectionResult :=
  let change_amount := clamp (-20) 20 change_amount
  let old_tier := s.affection.get_tier
  let event : AffectionEvent :=
    { timestamp := now, change_amount := change_amount, event_type := event_type
      description := description, context := context }
  let aff := s.affection.add_event event cfg.MAX_HISTORY_EVENTS
  let aff := { aff with
    affection_value := clamp (-100) 100 (aff.affection_value + change_amount) }
  let new_tier := aff.get_tier
  let loop_result :=
    if cfg.ENABLE_BOND_SYSTEM then bond_loop now BOND_DEFINITIONS aff []
    else (aff, [])
  ({ s with affection := loop_result.1 },
   { success := true
     new_affection := loop_result.1.affection_value
     tier_changed := old_tier ≠ new_tier
     new_tier := new_tier
     unlocked_bonds := loop_result.2 })

/-- Per-bond entry of the `get_bond_info` result (src/plugin.py
lines 695-700).  The source reports `round(progress * 100, 1)`; the raw
0-to-1 fraction `progress` is kept here (the `* 100` display rounding is
pure formatting). -/
structure BondInfoEntry where
  bond_id : String
  name : String
  unlocked : Bool
  progress : ℚ
deriving DecidableEq, Repr

/-- Result of `get_bond_info` (src/plugin.py lines 702-706). -/
structure BondInfoResult where
  total_bonds : Nat
  unlocked_count : Nat
  bonds : List BondInfoEntry
deriving DecidableEq, Repr

/-- The progress computation of `get_bond_info` (src/plugin.py
lines 680-693), with Python float division embedded as exact rational
division. -/
def bond_progress (aff : UserAffection) (cond : String) : ℚ :=
  if cond == "always" then 1
  else if cond == "affection >= 80" then min 1 ((aff.affection_value : ℚ) / 80)
  else if cond == "event_count_positive >= 5" then min 1 ((aff.total_positive : ℚ) / 5)
  else if cond == "event_count_positive >= 10" then min 1 ((aff.total_positive : ℚ) / 10)
  else if cond == "event_count_positive >= 20" then min 1 ((aff.total_positive : ℚ) / 20)
  else if cond == "event_type_crisis >= 3" then min 1 ((crisisCount aff.events : ℚ) / 3)
  else 0

/-- The for-loop of `get_bond_info` (src/plugin.py lines 673-700):
lazily creates a locked status for every catalog bond missing from the
in-memory profile and collects one entry per bond.  Note that the source
has no `ENABLE_BOND_SYSTEM` guard here and never saves the mutated
profile. -/
def bond_info_loop (defs : List (String × String × String))
    (aff : UserAffection) : UserAffection × List BondInfoEntry :=
  match defs with
  | [] => (aff, [])
  | (bond_id, name, cond) :: rest =>
    let aff := ensure_bond aff bond_id
    let status := (alistLookup aff.bonds bond_id).getD (BondStatus.create bond_id)
    let entry : BondInfoEntry :=
      { bond_id := bond_id, name := name, unlocked := status.unlocked
        progress := bond_progress aff cond }
    (( bond_info_loop rest aff).1, entry :: (bond_info_loop rest aff).2)

/-- `get_bond_info` (src/plugin.py lines 663-706).  Returns the
in-memory profile (whose `bonds` map may have gained locked placeholder
statuses — the source mutates `aff.bonds` but performs no save, so the
persisted profile is untouched) together with the report. -/
def get_bond_info (s : SocialData) : SocialData × BondInfoResult :=
  let bonds_data := (bond_info_loop BOND_DEFINITIONS s.affection).2
  ({ s with affection := (bond_info_loop BOND_DEFINITIONS s.affection).1 },
   { total_bonds := BOND_DEFINITIONS.length
     unlocked_count := (bonds_data.filter (·.unlocked)).length
     bonds := bonds_data })

/-- Result dictionary of `record_user_memory` (src/plugin.py lines 736
and 750): `merged = true` is the "已更新" outcome of the duplicate-content
branch, `merged = false` the "已记录" outcome of the creation branch. -/
structure RecordMemoryResult where
  memory_id : String
  merged : Bool
deriving DecidableEq, Repr

/-- The duplicate-content scan of `record_user_memory` (src/plugin.py
lines 731-732): first stored record whose content equals the argument,
in dict insertion order.  The scan does not look at expiry. -/
def findByContent (ms : List (String × UserMemory)) (content : String) :
    Option UserMemory :=
  (ms.map Prod.snd).find? (fun m => m.content == content)

/-- In-place update of the record found by the duplicate-content scan
(src/plugin.py lines 733-734): the first content match gets the raw new
importance if it is strictly greater; nothing else changes.  Note there
is no clamping on this path. -/
def updateFirstContent (ms : List (String × UserMemory)) (content : String)
    (importance : Int) : List (String × UserMemory) :=
  match ms with
  | [] => []
  | (k, m) :: rest =>
    if m.content == content then
      (k, if importance > m.importance then { m with importance := importance } else m)
        :: rest
    else (k, m) :: updateFirstContent rest content importance

/-- `record_user_memory` (src/plugin.py lines 718-750): scan for an
exact content match (merge path, importance raised only if strictly
greater, same id returned); otherwise create a fresh clamped record
under a fresh id.  The md5/time id generator is the explicit `fresh_id`
parameter; `chat_key` is `_ctx.chat_key`. -/
def record_user_memory (cfg : SocialMemoryConfig) (s : SocialData)
    (memory_type content : String) (importance : Int)
    (tags : Option (List String)) (chat_key fresh_id : String) (now : Int) :
    SocialData × RecordMemoryResult :=
  match findByContent s.memories content with
  | some mem =>
    ({ s with memories := updateFirstContent s.memories content importance },
     { memory_id := mem.memory_id, merged := true })
  | none =>
    let memory := UserMemory.create fresh_id memory_type content chat_key
      importance cfg.RETENTION_DAYS tags now
    ({ s with memories := alistInsert s.memories fresh_id memory },
     { memory_id := fresh_id, merged := false })

/-- The `memory_types` guard of query/search (src/plugin.py lines 773
and 813): Python `if memory_types and mem.memory_type not in
memory_types` — a `None` or empty list filters nothing. -/
def typeSkip (memory_types : Option (List String)) (t : String) : Bool :=
  match memory_types with
  | none => false
  | some l => !l.isEmpty && !(l.contains t)

/-- The sort shared by query and the renderers (src/plugin.py lines 506,
779, 889): Python stable sort by key `(-importance, -created_at)`. -/
def sortMems (l : List UserMemory) : List UserMemory :=
  l.mergeSort (fun a b =>
    b.importance < a.importance ∨ (a.importance = b.importance ∧ b.created_at ≤ a.created_at))

/-- Item dictionary returned by `query_user_memory` (src/plugin.py
lines 780-790). -/
structure QueryItem where
  memory_id : String
  memory_type : String
  content : String
  importance : Int
  created_at : Int
  tags : List String
deriving DecidableEq, Repr

/-- The filtered, sorted record list of `query_user_memory`
(src/plugin.py lines 769-779): skip expired (`expires_at < now`),
type-filtered and low-importance records, then sort. -/
def query_results (s : SocialData) (memory_types : Option (List String))
    (min_importance : Int) (now : Int) : List UserMemory :=
  sortMems ((s.memories.map Prod.snd).filter (fun mem =>
    !(mem.expires_at < now : Bool) && !typeSkip memory_types mem.memory_type
      && !(mem.importance < min_importance : Bool)))

/-- `query_user_memory` (src/plugin.py lines 758-790). -/
def query_user_memory (s : SocialData) (memory_types : Option (List String))
    (min_importance : Int) (limit : Int) (now : Int) : List QueryItem :=
  (pySliceTo (query_results s memory_types min_importance now) limit).map
    (fun m => { memory_id := m.memory_id, memory_type := m.memory_type
                content := m.content, importance := m.importance
                created_at := m.created_at, tags := m.tags })

/-- Python case-insensitive substring test
`keyword.lower() in content.lower()` (src/plugin.py line 815). -/
def strContainsCI (keyword content : String) : Bool :=
  content.toLower.data.tails.any (fun t => keyword.toLower.data.isPrefixOf t)

/-- Item dictionary returned by `search_user_memory` (src/plugin.py
line 820). -/
structure SearchItem where
  memory_id : String
  memory_type : String
  content : String
  importance : Int
deriving DecidableEq, Repr

/-- The scan loop of `search_user_memory` (src/plugin.py lines 810-818):
`continue` on expired or type-filtered records (skipping the break
check), append on substring match, and break once `len(results) ≥
limit`. -/
def search_loop (now : Int) (memory_types : Option (List String))
    (keyword : String) (limit : Int) :
    List UserMemory → List UserMemory → List UserMemory
  | [], results => results
  | mem :: rest, results =>
    if mem.expires_at < now then search_loop now memory_types keyword limit rest results
    else if typeSkip memory_types mem.memory_type then
      search_loop now memory_types keyword limit rest results
    else
      let results :=
        if strContainsCI keyword mem.content then results ++ [mem] else results
      if limit ≤ (results.length : Int) then results
      else search_loop now memory_types keyword limit rest results

/-- `search_user_memory` (src/plugin.py lines 798-820). -/
def search_user_memory (s : SocialData) (keyword : String)
    (memory_types : Option (List String)) (limit : Int) (now : Int) :
    List SearchItem :=
  (search_loop now memory_types keyword limit (s.memories.map Prod.snd) []).map
    (fun m => { memory_id := m.memory_id, memory_type := m.memory_type
                content := m.content, importance := m.importance })

/-- Result of `get_user_summary` (src/plugin.py lines 841-848). -/
structure UserSummary where
  total_memories : Nat
  by_type : List (String × Nat)
  affection : Int
  tier : AffectionTier
  total_events : Nat
  unlocked_bonds : List String
deriving DecidableEq, Repr

/-- The per-type counting loop of `get_user_summary` (src/plugin.py
lines 835-839): seeded with the six known types at 0, incremented
(`by_type.get(t, 0) + 1`) only for records with `expires_at ≥ now`. -/
def summary_by_type (ms : List (String × UserMemory)) (now : Int) :
    List (String × Nat) :=
  ms.foldl (fun acc p =>
    if p.2.expires_at ≥ now then
      alistInsert acc p.2.memory_type ((alistLookup acc p.2.memory_type).getD 0 + 1)
    else acc)
    [("preference", 0), ("personal_info", 0), ("commitment", 0),
     ("interest", 0), ("habit", 0), ("custom", 0)]

/-- `get_user_summary` (src/plugin.py lines 828-848).  Note
`total_memories` is `len(social_data.memories)` — it counts every stored
record, expired ones included. -/
def get_user_summary (s : SocialData) (now : Int) : UserSummary :=
  { total_memories := s.memories.length
    by_type := summary_by_type s.memories now
    affection := s.affection.affection_value
    tier := s.affection.get_tier
    total_events := s.affection.events.length
    unlocked_bonds := s.affection.get_unlocked_bonds }

/-- Display names of the tiers (src/plugin.py lines 482-489). -/
def tier_name : AffectionTier → String
  | .enemy => "敌人"
  | .stranger => "陌生人"
  | .acquaintance => "熟人"
  | .friend => "朋友"
  | .close_friend => "密友"
  | .soulmate => "灵魂伴侣"

/-- Display names of the memory types (src/plugin.py lines 511-514). -/
def memory_type_names : List (String × String) :=
  [("preference", "偏好"), ("personal_info", "信息"), ("commitment", "约定"),
   ("interest", "兴趣"), ("habit", "习惯")]

/-- The memory selection of the prompt injection (src/plugin.py
lines 502-507): non-expired records with importance ≥
MIN_IMPORTANCE_SCORE, sorted by importance then recency, truncated to
MAX_INJECTED_MEMORIES. -/
def render_valid_memories (cfg : SocialMemoryConfig) (s : SocialData)
    (now : Int) : List UserMemory :=
  pySliceTo
    (sortMems ((s.memories.map Prod.snd).filter (fun m =>
      !(m.is_expired now) && (m.importance ≥ cfg.MIN_IMPORTANCE_SCORE : Bool))))
    cfg.MAX_INJECTED_MEMORIES

/-- One rendered memory line (src/plugin.py lines 515-518). -/
def render_memory_line (m : UserMemory) : String :=
  let type_label := (alistLookup memory_type_names m.memory_type).getD m.memory_type
  let stars := pyRepeat "★" m.importance ++ pyRepeat "☆" (10 - m.importance)
  "- [" ++ type_label ++ "] " ++ m.content ++ " " ++ stars

/-- `social_memory_prompt_inject` (src/plugin.py lines 466-529), the
context renderer.  `fmt` stands for the `time.strftime`/`time.gmtime`
timestamp formatting, which is host-library text formatting. -/
def social_memory_prompt_inject (fmt : Int → String) (cfg : SocialMemoryConfig)
    (s : SocialData) (now : Int) : String :=
  let lines := ["## 社交记忆 (Social Memory)"]
  let tier := s.affection.get_tier
  let lines := lines ++
    ["- 关系: [" ++ tier_name tier ++ "] 好感度: " ++
      toString s.affection.affection_value ++ "/100"]
  let recent_events := pySliceFrom s.affection.events (-cfg.AFFECTION_PROMPT_LIMIT)
  let lines := lines ++
    (if recent_events.isEmpty then []
     else "\n### 最近互动:" ::
       recent_events.map (fun e =>
         let emoji := if e.change_amount > 0 then "😊"
                      else if e.change_amount < 0 then "😔" else "💬"
         "- " ++ emoji ++ " [" ++ fmt e.timestamp ++ "] " ++ e.description))
  let valid_memories := render_valid_memories cfg s now
  let lines := lines ++
    (if valid_memories.isEmpty then []
     else "\n### 用户记忆:" :: valid_memories.map render_memory_line)
  let lines := lines ++
    (if cfg.ENABLE_BOND_SYSTEM then
      let unlocked := s.affection.get_unlocked_bonds
      if unlocked.isEmpty then []
      else "\n### 已解锁羁绊:" ::
        (unlocked.filterMap (fun bond_id =>
          (alistLookup (BOND_DEFINITIONS.map (fun d => (d.1, d.2.1))) bond_id).map
            (fun nm => "- " ++ nm)))
     else [])
  String.intercalate "\n" lines

/-! ## Operation sequences

Only `record_affection_event` and `record_user_memory` call
`save_social_data`; every other public operation is load-only (in
particular `get_bond_info` mutates only its in-memory copy and never
saves).  The persisted per-user state therefore evolves exactly by the
two generators below. -/

/-- The inputs of one `record_affection_event` call. -/
structure AffCall where
  change : Int
  event_type : String
  description : String
  context : Option String
  now : Int
deriving DecidableEq, Repr

/-- The event that `record_affection_event` appends for a call. -/
def AffCall.event (c : AffCall) : AffectionEvent :=
  { timestamp := c.now, change_amount := clamp (-20) 20 c.change
    event_type := c.event_type, description := c.description, context := c.context }

/-- Persisted-state transition of one `record_affection_event` call. -/
def stepAff (cfg : SocialMemoryConfig) (s : SocialData) (c : AffCall) : SocialData :=
  (record_affection_event cfg s c.change c.event_type c.description c.context c.now).1

/-- Persisted state after a sequence of `record_affection_event` calls. -/
def runAff (cfg : SocialMemoryConfig) (s : SocialData) (cs : List AffCall) : SocialData :=
  cs.foldl (stepAff cfg) s

/-- A state-mutating public operation (the only two that save). -/
inductive SocialOp where
  | affEvent (c : AffCall)
  | userMem (memory_type content : String) (importance : Int)
      (tags : Option (List String)) (chat_key fresh_id : String) (now : Int)
deriving DecidableEq, Repr

/-- Persisted-state transition of one state-mutating operation. -/
def stepOp (cfg : SocialMemoryConfig) (s : SocialData) : SocialOp → SocialData
  | .affEvent c => stepAff cfg s c
  | .userMem memory_type content importance tags chat_key fresh_id now =>
    (record_user_memory cfg s memory_type content importance tags chat_key fresh_id now).1

/-- Persisted state after a sequence of state-mutating operations. -/
def runOps (cfg : SocialMemoryConfig) (s : SocialData) (ops : List SocialOp) : SocialData :=
  ops.foldl (stepOp cfg) s

/-- Unlocked flag of a bond in a ledger (`false` when the status is
absent). -/
def bondUnlocked (aff : UserAffection) (bond_id : String) : Bool :=
  ((alistLookup aff.bonds bond_id).map (·.unlocked)).getD false

/-- Unlocked flag of the `shared_laugh` bond in a profile. -/
def sharedUnlocked (s : SocialData) : Bool :=
  bondUnlocked s.affection "shared_laugh"

/-! ## The spec-side tier table -/

/-- The band table of spec §4.1: `(inclusive lower bound, band)`, listed
from the highest band down. -/
def tierTable : List (Int × AffectionTier) :=
  [(81, .soulmate), (51, .close_friend), (11, .friend),
   (-19, .acquaintance), (-59, .stranger), (-100, .enemy)]

/-- Modelled from the spec's words (§4.1): the tier of `v` is the band of
the first (i.e. highest) table row whose inclusive lower bound is ≤ `v`,
with `enemy` as the catch-all.  This is the definition the source's
`UserAffection.get_tier` is compared against. -/
def tierSpec (v : Int) : AffectionTier :=
  (((tierTable.filter (fun p => p.1 ≤ v)).head?).map (·.2)).getD .enemy

/-! ## Persistence round trip

`save_social_data` stores `data.model_dump_json()` and `get_social_data`
restores it with `SocialData.model_validate_json` (src/plugin.py
lines 445-459).  The JSON codec itself lives in the host's pydantic
library, not in this repository; it is modelled here field by field from
the `BaseModel` declarations of src/plugin.py: every declared field is
dumped under its own name in declaration order (ints as JSON numbers,
strings as JSON strings, `Optional[str]` as string-or-null, lists as
arrays, `Dict[str, ...]` as objects in insertion order). -/

/-- A JSON value. -/
inductive JVal where
  | jnull
  | jbool (b : Bool)
  | jint (n : Int)
  | jstr (s : String)
  | jarr (xs : List JVal)
  | jobj (fields : List (String × JVal))

/-- Dump of an `Optional[str]` field. -/
def optStrJson : Option String → JVal
  | none => .jnull
  | some s => .jstr s

/-- Parse of an `Optional[str]` field. -/
def jOptStr : JVal → Option (Option String)
  | .jnull => some none
  | .jstr s => some (some s)
  | _ => none

/-- Parse of a `str` field. -/
def jStr : JVal → Option String
  | .jstr s => some s
  | _ => none

/-- Dump of an `AffectionEvent` (fields in declaration order). -/
def AffectionEvent.toJson (e : AffectionEvent) : JVal :=
  .jobj [("timestamp", .jint e.timestamp),
         ("change_amount", .jint e.change_amount),
         ("event_type", .jstr e.event_type),
         ("description", .jstr e.description),
         ("context", optStrJson e.context)]

/-- Parse of an `AffectionEvent`. -/
def AffectionEvent.fromJson : JVal → Option AffectionEvent
  | .jobj [("timestamp", .jint t), ("change_amount", .jint c),
           ("event_type", .jstr ty), ("description", .jstr d),
           ("context", ctx)] =>
    (jOptStr ctx).map (fun o =>
      { timestamp := t, change_amount := c, event_type := ty
        description := d, context := o })
  | _ => none

/-- Dump of a `BondStatus`. -/
def BondStatus.toJson (b : BondStatus) : JVal :=
  .jobj [("bond_id", .jstr b.bond_id),
         ("unlocked", .jbool b.unlocked),
         ("unlock_time", .jint b.unlock_time)]

/-- Parse of a `BondStatus`. -/
def BondStatus.fromJson : JVal → Option BondStatus
  | .jobj [("bond_id", .jstr bid), ("unlocked", .jbool u), ("unlock_time", .jint t)] =>
    some { bond_id := bid, unlocked := u, unlock_time := t }
  | _ => none

/-- Dump of a `UserAffection`. -/
def UserAffection.toJson (a : UserAffection) : JVal :=
  .jobj [("user_id", .jstr a.user_id),
         ("affection_value", .jint a.affection_value),
         ("total_positive", .jint a.total_positive),
         ("total_negative", .jint a.total_negative),
         ("first_met_time", .jint a.first_met_time),
         ("last_interaction_time", .jint a.last_interaction_time),
         ("events", .jarr (a.events.map AffectionEvent.toJson)),
         ("bonds", .jobj (a.bonds.map (fun p => (p.1, BondStatus.toJson p.2))))]

/-- Parse of a `UserAffection`. -/
def UserAffection.fromJson : JVal → Option UserAffection
  | .jobj [("user_id", .jstr u), ("affection_value", .jint v),
           ("total_positive", .jint tp), ("total_negative", .jint tn),
           ("first_met_time", .jint fm), ("last_interaction_time", .jint li),
           ("events", .jarr evs), ("bonds", .jobj bs)] => do
    let es ← evs.mapM AffectionEvent.fromJson
    let bl ← bs.mapM (fun p => (BondStatus.fromJson p.2).map (fun b => (p.1, b)))
    pure { user_id := u, affection_value := v, total_positive := tp
           total_negative := tn, first_met_time := fm, last_interaction_time := li
           events := es, bonds := bl }
  | _ => none

/-- Dump of a `UserMemory`. -/
def UserMemory.toJson (m : UserMemory) : JVal :=
  .jobj [("memory_id", .jstr m.memory_id),
         ("memory_type", .jstr m.memory_type),
         ("content", .jstr m.content),
         ("importance", .jint m.importance),
         ("source_chat_key", .jstr m.source_chat_key),
         ("created_at", .jint m.created_at),
         ("expires_at", .jint m.expires_at),
         ("tags", .jarr (m.tags.map JVal.jstr))]

/-- Parse of a `UserMemory`. -/
def UserMemory.fromJson : JVal → Option UserMemory
  | .jobj [("memory_id", .jstr mid), ("memory_type", .jstr mt),
           ("content", .jstr c), ("importance", .jint imp),
           ("source_chat_key", .jstr sck), ("created_at", .jint ca),
           ("expires_at", .jint ea), ("tags", .jarr ts)] => do
    let tags ← ts.mapM jStr
    pure { memory_id := mid, memory_type := mt, content := c, importance := imp
           source_chat_key := sck, created_at := ca, expires_at := ea, tags := tags }
  | _ => none

/-- Dump of a whole `SocialData` blob (`model_dump_json`). -/
def SocialData.toJson (s : SocialData) : JVal :=
  .jobj [("affection", s.affection.toJson),
         ("memories", .jobj (s.memories.map (fun p => (p.1, UserMemory.toJson p.2))))]

/-- Parse of a whole `SocialData` blob (`model_validate_json`). -/
def SocialData.fromJson : JVal → Option SocialData
  | .jobj [("affection", a), ("memories", .jobj ms)] => do
    let aff ← UserAffection.fromJson a
    let mems ← ms.mapM (fun p => (UserMemory.fromJson p.2).map (fun m => (p.1, m)))
    pure { affection := aff, memories := mems }
  | _ => none

/-! ## Basic lemmas -/

theorem clamp_lower (lo hi v : Int) : lo ≤ clamp lo hi v := by
  simp [clamp]

theorem clamp_upper (lo hi v : Int) (h : lo ≤ hi) : clamp lo hi v ≤ hi := by
  simp only [clamp, max_le_iff]
  exact ⟨h, min_le_left _ _⟩

theorem pySliceFrom_suffix (l : List α) (start : Int) : pySliceFrom l start <:+ l := by
  unfold pySliceFrom
  split <;> exact List.drop_suffix _ _

theorem pySliceFrom_neg_length_le (l : List α) (n : Int) (h : 1 ≤ n) :
    ((pySliceFrom l (-n)).length : Int) ≤ n := by
  unfold pySliceFrom
  rw [if_pos (by omega)]
  rw [List.length_drop]
  omega

theorem mem_pySliceTo (l : List α) (n : Int) (x : α) (h : x ∈ pySliceTo l n) : x ∈ l := by
  unfold pySliceTo at h
  split at h <;> exact List.mem_of_mem_take h

theorem alistLookup_cons (k0 k : String) (v0 : β) (rest : List (String × β)) :
    alistLookup ((k0, v0) :: rest) k =
      if k0 = k then some v0 else alistLookup rest k := by
  by_cases h : k0 = k
  · have hb : (k0 == k) = true := by simpa using h
    simp [alistLookup, List.find?_cons, hb, h]
  · have hb : (k0 == k) = false := by simpa using h
    simp [alistLookup, List.find?_cons, hb, h]

theorem alistInsert_cons (k0 k : String) (v0 v : β) (rest : List (String × β)) :
    alistInsert ((k0, v0) :: rest) k v =
      if k0 = k then (k, v) :: rest else (k0, v0) :: alistInsert rest k v := by
  by_cases h : k0 = k
  · have hb : (k0 == k) = true := by simpa using h
    simp [alistInsert, hb, h]
  · have hb : (k0 == k) = false := by simpa using h
    simp [alistInsert, hb, h]

theorem alistLookup_insert_self (l : List (String × β)) (k : String) (v : β) :
    alistLookup (alistInsert l k v) k = some v := by
  induction l with
  | nil => simp [alistInsert, alistLookup_cons]
  | cons p rest ih =>
    obtain ⟨k', v'⟩ := p
    rw [alistInsert_cons]
    by_cases hk : k' = k
    · simp [hk, alistLookup_cons]
    · simp [hk, alistLookup_cons, ih]

theorem alistLookup_insert_ne (l : List (String × β)) (k k' : String) (v : β)
    (h : k' ≠ k) : alistLookup (alistInsert l k' v) k = alistLookup l k := by
  induction l with
  | nil => simp [alistInsert, alistLookup_cons, h]
  | cons p rest ih =>
    obtain ⟨k0, v0⟩ := p
    rw [alistInsert_cons]
    by_cases hk : k0 = k'
    · subst hk
      simp [alistLookup_cons, h]
    · simp [hk, alistLookup_cons, ih]

theorem alistContains_eq_isSome (l : List (String × β)) (k : String) :
    alistContains l k = (alistLookup l k).isSome := by
  simp [alistContains, alistLookup]

theorem alistInsert_of_not_contains (l : List (String × β)) (k : String) (v : β)
    (h : alistContains l k = false) : alistInsert l k v = l ++ [(k, v)] := by
  induction l with
  | nil => simp [alistInsert]
  | cons p rest ih =>
    obtain ⟨k0, v0⟩ := p
    rw [alistContains_eq_isSome, alistLookup_cons] at h
    by_cases hk : k0 = k
    · simp [hk] at h
    · rw [alistInsert_cons, if_neg hk, List.cons_append]
      rw [if_neg hk] at h
      rw [ih (by rw [alistContains_eq_isSome]; exact h)]

/-! ## C5: the tier table -/

/-- A ledger whose only relevant field is the affection value (used to
evaluate `get_tier` at specific claim points). -/
def uaOfValue (v : Int) : UserAffection :=
  { user_id := "u", affection_value := v }

/-- **C5** — `tier(v)` matches the spec table (§4.1) with inclusive lower
bounds, highest matching band winning, for every affection value in
[-100,100]; in particular v=10 → acquaintance, v=11 → friend,
v=50 → friend, v=51 → close_friend. -/
theorem C5_tier_table :
    (∀ ua : UserAffection, -100 ≤ ua.affection_value → ua.affection_value ≤ 100 →
      ua.get_tier = tierSpec ua.affection_value)
    ∧ (uaOfValue 10).get_tier = .acquaintance
    ∧ (uaOfValue 11).get_tier = .friend
    ∧ (uaOfValue 50).get_tier = .friend
    ∧ (uaOfValue 51).get_tier = .close_friend := by
  refine ⟨?_, by decide, by decide, by decide, by decide⟩
  intro ua h1 h2
  simp only [UserAffection.get_tier, tierSpec, tierTable, List.filter_cons,
    List.filter_nil, decide_eq_true_eq]
  split_ifs <;> rfl

/-- Witness for C5 at the concrete boundary values. -/
theorem C5_tier_table_witness :
    (uaOfValue 50).get_tier = tierSpec 50 ∧ (uaOfValue 10).get_tier = tierSpec 10 :=
  ⟨C5_tier_table.1 (uaOfValue 50) (by decide) (by decide),
   C5_tier_table.1 (uaOfValue 10) (by decide) (by decide)⟩

/-! ## C9: persistence round trip -/

theorem affectionEvent_fromJson_toJson (e : AffectionEvent) :
    AffectionEvent.fromJson e.toJson = some e := by
  obtain ⟨t, c, ty, d, ctx⟩ := e
  cases ctx <;> rfl

theorem bondStatus_fromJson_toJson (b : BondStatus) :
    BondStatus.fromJson b.toJson = some b := rfl

/-- Round trip of a straight list of json-dumped elements. -/
theorem mapM_fromJson_map_toJson {α : Type} (f : α → JVal) (g : JVal → Option α)
    (h : ∀ a, g (f a) = some a) (l : List α) : (l.map f).mapM g = some l := by
  induction l with
  | nil => rfl
  | cons x xs ih =>
    rw [List.map_cons, List.mapM_cons, h, ih]
    rfl

/-- Round trip of an insertion-ordered dict of json-dumped values. -/
theorem mapM_fromJson_pairs {β : Type} (f : β → JVal) (g : JVal → Option β)
    (h : ∀ b, g (f b) = some b) (l : List (String × β)) :
    (l.map (fun p => (p.1, f p.2))).mapM
      (fun p => (g p.2).map (fun b => (p.1, b))) = some l := by
  induction l with
  | nil => rfl
  | cons x xs ih =>
    rw [List.map_cons, List.mapM_cons]
    simp only [h, Option.map_some]
    rw [ih]
    rfl

theorem userMemory_fromJson_toJson (m : UserMemory) :
    UserMemory.fromJson m.toJson = some m := by
  obtain ⟨mid, mt, c, imp, sck, ca, ea, ts⟩ := m
  show (do
    let tags ← (ts.map JVal.jstr).mapM jStr
    pure { memory_id := mid, memory_type := mt, content := c, importance := imp
           source_chat_key := sck, created_at := ca, expires_at := ea, tags := tags
           : UserMemory }) = some _
  rw [mapM_fromJson_map_toJson JVal.jstr jStr (fun a => rfl) ts]
  rfl

theorem userAffection_fromJson_toJson (a : UserAffection) :
    UserAffection.fromJson a.toJson = some a := by
  obtain ⟨u, v, tp, tn, fm, li, evs, bs⟩ := a
  show (do
    let es ← (evs.map AffectionEvent.toJson).mapM AffectionEvent.fromJson
    let bl ← (bs.map (fun p => (p.1, BondStatus.toJson p.2))).mapM
      (fun p => (BondStatus.fromJson p.2).map (fun b => (p.1, b)))
    pure { user_id := u, affection_value := v, total_positive := tp
           total_negative := tn, first_met_time := fm, last_interaction_time := li
           events := es, bonds := bl : UserAffection }) = some _
  rw [mapM_fromJson_map_toJson _ _ affectionEvent_fromJson_toJson,
    mapM_fromJson_pairs _ _ bondStatus_fromJson_toJson]
  rfl

/-- **C9** — serializing a `SocialProfile` to the persistence blob and
deserializing it yields the original profile, field for field, for every
profile value (every field of the data model: affection value, totals,
timestamps, event list with contexts, bond statuses, all memory records
with their tags). -/
theorem C9_roundtrip (s : SocialData) : SocialData.fromJson s.toJson = some s := by
  obtain ⟨aff, mems⟩ := s
  show (do
    let a ← UserAffection.fromJson aff.toJson
    let ms ← (mems.map (fun p => (p.1, UserMemory.toJson p.2))).mapM
      (fun p => (UserMemory.fromJson p.2).map (fun m => (p.1, m)))
    pure { affection := a, memories := ms : SocialData }) = some _
  rw [userAffection_fromJson_toJson,
    mapM_fromJson_pairs _ _ userMemory_fromJson_toJson]
  rfl

/-! ## Structural lemmas about `record_affection_event` -/

/-- The bond loop changes nothing but the `bonds` map. -/
theorem bond_loop_fst_shape (now : Int) (defs : List (String × String × String)) :
    ∀ (aff : UserAffection) (u : List String),
      ∃ b, (bond_loop now defs aff u).1 = { aff with bonds := b } := by
  induction defs with
  | nil => exact fun aff u => ⟨aff.bonds, rfl⟩
  | cons d rest ih =>
    intro aff u
    obtain ⟨bid, nm, cond⟩ := d
    have hstep : ∃ b, (bond_step now bid cond aff u).1 = { aff with bonds := b } := by
      simp only [bond_step, ensure_bond]
      split_ifs <;> exact ⟨_, rfl⟩
    obtain ⟨c, hc⟩ := hstep
    show ∃ b, (bond_loop now rest (bond_step now bid cond aff u).1
      (bond_step now bid cond aff u).2).1 = _
    exact (ih _ _).imp (fun b hb => hb.trans (by rw [hc]))

theorem bond_loop_events (now : Int) (defs : List (String × String × String))
    (aff : UserAffection) (u : List String) :
    (bond_loop now defs aff u).1.events = aff.events := by
  obtain ⟨b, hb⟩ := bond_loop_fst_shape now defs aff u
  rw [hb]

theorem bond_loop_affection_value (now : Int) (defs : List (String × String × String))
    (aff : UserAffection) (u : List String) :
    (bond_loop now defs aff u).1.affection_value = aff.affection_value := by
  obtain ⟨b, hb⟩ := bond_loop_fst_shape now defs aff u
  rw [hb]

theorem bond_loop_total_positive (now : Int) (defs : List (String × String × String))
    (aff : UserAffection) (u : List String) :
    (bond_loop now defs aff u).1.total_positive = aff.total_positive := by
  obtain ⟨b, hb⟩ := bond_loop_fst_shape now defs aff u
  rw [hb]

/-- The ledger after the event append and value clamp of one
`record_affection_event` call, before the bond loop. -/
def affAfterEvent (cfg : SocialMemoryConfig) (s : SocialData) (c : AffCall) :
    UserAffection :=
  let aff := s.affection.add_event c.event cfg.MAX_HISTORY_EVENTS
  { aff with
    affection_value := clamp (-100) 100 (aff.affection_value + clamp (-20) 20 c.change) }

theorem stepAff_eq (cfg : SocialMemoryConfig) (s : SocialData) (c : AffCall) :
    stepAff cfg s c =
      { s with affection :=
          if cfg.ENABLE_BOND_SYSTEM then
            (bond_loop c.now BOND_DEFINITIONS (affAfterEvent cfg s c) []).1
          else affAfterEvent cfg s c } := by
  cases hb : cfg.ENABLE_BOND_SYSTEM <;>
    simp [stepAff, record_affection_event, affAfterEvent, AffCall.event, hb]

theorem affAfterEvent_affection_value (cfg : SocialMemoryConfig) (s : SocialData)
    (c : AffCall) : (affAfterEvent cfg s c).affection_value =
      clamp (-100) 100 (s.affection.affection_value + clamp (-20) 20 c.change) := rfl

theorem affAfterEvent_events (cfg : SocialMemoryConfig) (s : SocialData)
    (c : AffCall) : (affAfterEvent cfg s c).events =
      pySliceFrom (s.affection.events ++ [c.event]) (-cfg.MAX_HISTORY_EVENTS) := rfl

theorem stepAff_affection_value (cfg : SocialMemoryConfig) (s : SocialData) (c : AffCall) :
    (stepAff cfg s c).affection.affection_value =
      clamp (-100) 100 (s.affection.affection_value + clamp (-20) 20 c.change) := by
  rw [stepAff_eq]
  show (if cfg.ENABLE_BOND_SYSTEM then _ else _ : UserAffection).affection_value = _
  split
  · rw [bond_loop_affection_value, affAfterEvent_affection_value]
  · exact affAfterEvent_affection_value cfg s c

theorem stepAff_events (cfg : SocialMemoryConfig) (s : SocialData) (c : AffCall) :
    (stepAff cfg s c).affection.events =
      pySliceFrom (s.affection.events ++ [c.event]) (-cfg.MAX_HISTORY_EVENTS) := by
  rw [stepAff_eq]
  show (if cfg.ENABLE_BOND_SYSTEM then _ else _ : UserAffection).events = _
  split
  · rw [bond_loop_events, affAfterEvent_events]
  · exact affAfterEvent_events cfg s c

theorem stepAff_total_positive (cfg : SocialMemoryConfig) (s : SocialData) (c : AffCall) :
    (stepAff cfg s c).affection.total_positive =
      s.affection.total_positive +
        (if 0 < clamp (-20) 20 c.change then clamp (-20) 20 c.change else 0) := by
  rw [stepAff_eq]
  show (if cfg.ENABLE_BOND_SYSTEM then _ else _ : UserAffection).total_positive = _
  have hmid : (affAfterEvent cfg s c).total_positive =
      s.affection.total_positive +
        (if 0 < clamp (-20) 20 c.change then clamp (-20) 20 c.change else 0) := by
    show (if 0 < clamp (-20) 20 c.change then
        s.affection.total_positive + clamp (-20) 20 c.change
      else s.affection.total_positive) = _
    split <;> simp
  split
  · rw [bond_loop_total_positive, hmid]
  · rw [hmid]

theorem runAff_take_succ (cfg : SocialMemoryConfig) (s : SocialData)
    (cs : List AffCall) (k : Nat) (hk : k < cs.length) :
    runAff cfg s (cs.take (k+1)) =
      stepAff cfg (runAff cfg s (cs.take k)) (cs.get ⟨k, hk⟩) := by
  rw [runAff, runAff, List.take_succ, List.getElem?_eq_getElem hk, List.foldl_append]
  rfl

/-! ## C1: bounds after every `recordAffectionEvent` call -/

/-- **C1 (amended)** — provided the configured history cap is at least 1,
after each call in any sequence of `recordAffectionEvent` calls the
affection value is in [-100,100], the history holds at most
MAX_HISTORY_EVENTS events, and the post-call history is a suffix of the
previous history extended by the new event (so the oldest entries are
the evicted ones).  (With MAX_HISTORY_EVENTS = 0 the Python slice
`events[-0:]` keeps the whole list, so the cap does not hold — see the
counterexample.) -/
theorem C1_bounds_amended (cfg : SocialMemoryConfig)
    (hmax : 1 ≤ cfg.MAX_HISTORY_EVENTS) (s : SocialData) (cs : List AffCall)
    (k : Nat) (hk : k < cs.length) :
    -100 ≤ (runAff cfg s (cs.take (k+1))).affection.affection_value
    ∧ (runAff cfg s (cs.take (k+1))).affection.affection_value ≤ 100
    ∧ ((runAff cfg s (cs.take (k+1))).affection.events.length : Int)
        ≤ cfg.MAX_HISTORY_EVENTS
    ∧ (runAff cfg s (cs.take (k+1))).affection.events <:+
        ((runAff cfg s (cs.take k)).affection.events ++ [(cs.get ⟨k, hk⟩).event]) := by
  rw [runAff_take_succ cfg s cs k hk]
  refine ⟨?_, ?_, ?_, ?_⟩
  · rw [stepAff_affection_value]
    exact clamp_lower _ _ _
  · rw [stepAff_affection_value]
    exact clamp_upper _ _ _ (by norm_num)
  · rw [stepAff_events]
    exact pySliceFrom_neg_length_le _ _ hmax
  · rw [stepAff_events]
    exact pySliceFrom_suffix _ _

/-- A fresh profile and a simple positive event, shared by several
concrete evaluations. -/
def demoState : SocialData := SocialData.create "u" 0 0

/-- A configuration with history cap 0 (any `int` is accepted by the
config schema). -/
def cexHistoryConfig : SocialMemoryConfig := { MAX_HISTORY_EVENTS := 0 }

/-- A single +5 positive call. -/
def demoCall : AffCall :=
  { change := 5, event_type := "positive", description := "thanks"
    context := none, now := 100 }

/-- **C1 (counterexample)** — with MAX_HISTORY_EVENTS configured to 0,
one `recordAffectionEvent` call leaves 1 > 0 events in the history:
Python `events[-0:]` keeps everything, so the length bound of the claim
fails. -/
theorem C1_bounds_cex :
    ¬ (((stepAff cexHistoryConfig demoState demoCall).affection.events.length : Int)
        ≤ cexHistoryConfig.MAX_HISTORY_EVENTS) := by decide

/-- Witness: the amended C1 at a concrete call. -/
theorem C1_bounds_witness :
    ((runAff {} demoState ([demoCall].take (0+1))).affection.events.length : Int)
      ≤ ({} : SocialMemoryConfig).MAX_HISTORY_EVENTS :=
  (C1_bounds_amended {} (by decide) demoState [demoCall] 0 (by decide)).2.2.1

/-! ## Structural lemmas about the memory store -/

theorem findByContent_cons (k0 : String) (m0 : UserMemory)
    (rest : List (String × UserMemory)) (content : String) :
    findByContent ((k0, m0) :: rest) content =
      if m0.content = content then some m0 else findByContent rest content := by
  by_cases h : m0.content = content
  · have hb : (m0.content == content) = true := by simpa using h
    simp [findByContent, List.find?_cons, hb, h]
  · have hb : (m0.content == content) = false := by simpa using h
    simp [findByContent, List.find?_cons, hb, h]

theorem findByContent_append (l1 l2 : List (String × UserMemory)) (content : String)
    (h : findByContent l1 content = none) :
    findByContent (l1 ++ l2) content = findByContent l2 content := by
  induction l1 with
  | nil => rfl
  | cons p rest ih =>
    obtain ⟨k0, m0⟩ := p
    rw [findByContent_cons] at h
    rw [List.cons_append, findByContent_cons]
    by_cases hc : m0.content = content
    · rw [if_pos hc] at h
      exact absurd h (by simp)
    · rw [if_neg hc] at h ⊢
      exact ih h

theorem updateFirstContent_cons (k0 : String) (m0 : UserMemory)
    (rest : List (String × UserMemory)) (content : String) (importance : Int) :
    updateFirstContent ((k0, m0) :: rest) content importance =
      if m0.content = content then
        (k0, if importance > m0.importance then { m0 with importance := importance }
             else m0) :: rest
      else (k0, m0) :: updateFirstContent rest content importance := by
  by_cases h : m0.content = content
  · have hb : (m0.content == content) = true := by simpa using h
    simp [updateFirstContent, hb, h]
  · have hb : (m0.content == content) = false := by simpa using h
    simp [updateFirstContent, hb, h]

theorem updateFirstContent_length (ms : List (String × UserMemory))
    (content : String) (importance : Int) :
    (updateFirstContent ms content importance).length = ms.length := by
  induction ms with
  | nil => rfl
  | cons p rest ih =>
    obtain ⟨k0, m0⟩ := p
    rw [updateFirstContent_cons]
    by_cases h : m0.content = content
    · rw [if_pos h]
      simp
    · rw [if_neg h]
      simpa using ih

theorem findByContent_updateFirstContent (ms : List (String × UserMemory))
    (content : String) (importance : Int) (m : UserMemory)
    (h : findByContent ms content = some m) :
    findByContent (updateFirstContent ms content importance) content =
      some (if importance > m.importance then { m with importance := importance }
            else m) := by
  induction ms with
  | nil => simp [findByContent] at h
  | cons p rest ih =>
    obtain ⟨k0, m0⟩ := p
    rw [findByContent_cons] at h
    rw [updateFirstContent_cons]
    by_cases hc : m0.content = content
    · rw [if_pos hc] at h
      have hm : m0 = m := by injection h
      subst hm
      rw [if_pos hc, findByContent_cons]
      have hcc : (if importance > m0.importance then
          { m0 with importance := importance } else m0).content = content := by
        split <;> exact hc
      rw [if_pos hcc]
    · rw [if_neg hc] at h
      rw [if_neg hc, findByContent_cons, if_neg hc]
      exact ih h

theorem updateFirstContent_of_le (ms : List (String × UserMemory))
    (content : String) (importance : Int) (m : UserMemory)
    (h : findByContent ms content = some m) (hle : importance ≤ m.importance) :
    updateFirstContent ms content importance = ms := by
  induction ms with
  | nil => rfl
  | cons p rest ih =>
    obtain ⟨k0, m0⟩ := p
    rw [findByContent_cons] at h
    rw [updateFirstContent_cons]
    by_cases hc : m0.content = content
    · rw [if_pos hc] at h
      cases h
      rw [if_pos hc, if_neg (by omega)]
    · rw [if_neg hc] at h
      rw [if_neg hc, ih h]

/-- The values of the updated store: every record is either an untouched
original or an original content-match whose importance was replaced;
`memory_id`, `content`, `created_at` and `expires_at` are never
altered. -/
theorem mem_updateFirstContent (ms : List (String × UserMemory))
    (content : String) (importance : Int) (m' : UserMemory)
    (h : m' ∈ (updateFirstContent ms content importance).map Prod.snd) :
    ∃ m0 ∈ ms.map Prod.snd,
      m'.memory_id = m0.memory_id ∧ m'.content = m0.content ∧
      m'.created_at = m0.created_at ∧ m'.expires_at = m0.expires_at := by
  induction ms with
  | nil => simp [updateFirstContent] at h
  | cons p rest ih =>
    obtain ⟨k0, m0⟩ := p
    rw [updateFirstContent_cons] at h
    by_cases hc : m0.content = content
    · rw [if_pos hc, List.map_cons] at h
      rcases List.mem_cons.mp h with h1 | h1
      · subst h1
        refine ⟨m0, ?_, ?_⟩
        · rw [List.map_cons]
          exact List.mem_cons_self _ _
        · split <;> exact ⟨rfl, rfl, rfl, rfl⟩
      · refine ⟨m', ?_, rfl, rfl, rfl, rfl⟩
        rw [List.map_cons]
        exact List.mem_cons_of_mem _ h1
    · rw [if_neg hc, List.map_cons] at h
      rcases List.mem_cons.mp h with h1 | h1
      · refine ⟨m0, ?_, by rw [h1], by rw [h1], by rw [h1], by rw [h1]⟩
        rw [List.map_cons]
        exact List.mem_cons_self _ _
      · obtain ⟨mm, hmm, hfields⟩ := ih h1
        refine ⟨mm, ?_, hfields⟩
        rw [List.map_cons]
        exact List.mem_cons_of_mem _ hmm

/-! ## C2: importance clamping -/

/-- **C2 (amended)** — a record created by `recordMemory` has its
importance silently clamped into [0,10]; but when an existing record
with identical content is updated to a strictly greater importance, the
raw argument is stored without clamping, so a stored importance can
leave [0,10] (see the counterexample). -/
theorem C2_importance_amended (cfg : SocialMemoryConfig) (s : SocialData)
    (mtype content : String) (imp : Int) (tags : Option (List String))
    (ck fid : String) (now : Int) :
    (findByContent s.memories content = none →
      alistLookup (record_user_memory cfg s mtype content imp tags ck fid now).1.memories
          fid
        = some (UserMemory.create fid mtype content ck imp cfg.RETENTION_DAYS tags now)
      ∧ 0 ≤ (UserMemory.create fid mtype content ck imp cfg.RETENTION_DAYS tags
          now).importance
      ∧ (UserMemory.create fid mtype content ck imp cfg.RETENTION_DAYS tags
          now).importance ≤ 10)
    ∧ (∀ m, findByContent s.memories content = some m → m.importance < imp →
        findByContent
            (record_user_memory cfg s mtype content imp tags ck fid now).1.memories
            content
          = some { m with importance := imp }) := by
  constructor
  · intro h
    refine ⟨?_, ?_, ?_⟩
    · simp only [record_user_memory, h]
      exact alistLookup_insert_self _ _ _
    · simp only [UserMemory.create]
      omega
    · simp only [UserMemory.create]
      omega
  · intro m h hlt
    simp only [record_user_memory, h]
    rw [findByContent_updateFirstContent s.memories content imp m h,
      if_pos (by omega)]

/-- An in-range record used by several concrete evaluations. -/
def cexMem : UserMemory :=
  { memory_id := "m1", memory_type := "preference", content := "x"
    importance := 5, source_chat_key := "ck", created_at := 0
    expires_at := 100, tags := [] }

/-- A profile holding `cexMem`. -/
def cexState : SocialData :=
  { affection := UserAffection.create "u" 0 0, memories := [("m1", cexMem)] }

/-- **C2 (counterexample)** — merging content "x" (existing importance 5)
with importance argument 11 stores importance 11, which is outside
[0,10]: the merge path of `record_user_memory` does not clamp. -/
theorem C2_importance_cex :
    (findByContent
        (record_user_memory {} cexState "preference" "x" 11 none "ck" "id2" 0).1.memories
        "x").map (fun m => m.importance) = some 11
    ∧ ¬ ((11 : Int) ≤ 10) := by decide

/-- Witness: amended C2, creation path at importance 23 (clamped to 10)
and merge path at importance 11 over existing importance 5. -/
theorem C2_importance_witness :
    (alistLookup
        (record_user_memory {} demoState "preference" "x" 23 none "ck" "id1" 0).1.memories
        "id1"
      = some (UserMemory.create "id1" "preference" "x" "ck" 23
          ({} : SocialMemoryConfig).RETENTION_DAYS none 0))
    ∧ findByContent
        (record_user_memory {} cexState "preference" "x" 11 none "ck" "id2" 0).1.memories
        "x" = some { cexMem with importance := 11 } :=
  ⟨((C2_importance_amended {} demoState "preference" "x" 23 none "ck" "id1" 0).1
      (by decide)).1,
   (C2_importance_amended {} cexState "preference" "x" 11 none "ck" "id2" 0).2
      cexMem (by decide) (by decide)⟩

/-! ## Membership lemmas for query / search / render -/

theorem mem_query_results (s : SocialData) (mt : Option (List String))
    (minImp now : Int) (m : UserMemory) (h : m ∈ query_results s mt minImp now) :
    m ∈ s.memories.map Prod.snd ∧ ¬(m.expires_at < now) := by
  unfold query_results sortMems at h
  rw [List.mem_mergeSort] at h
  have h2 := List.mem_filter.mp h
  refine ⟨h2.1, ?_⟩
  have h3 := h2.2
  simp only [Bool.and_eq_true, Bool.not_eq_true', decide_eq_false_iff_not] at h3
  exact h3.1.1

theorem mem_search_loop (now : Int) (mt : Option (List String)) (kw : String)
    (lim : Int) : ∀ (l acc : List UserMemory) (r : UserMemory),
    r ∈ search_loop now mt kw lim l acc → r ∈ acc ∨ (r ∈ l ∧ ¬(r.expires_at < now)) := by
  intro l
  induction l with
  | nil =>
    intro acc r h
    exact Or.inl (by simpa [search_loop] using h)
  | cons mem rest ih =>
    intro acc r h
    simp only [search_loop] at h
    split_ifs at h with h1 h2 h3 h4 h5
    · rcases ih _ _ h with ha | hb
      · exact Or.inl ha
      · exact Or.inr ⟨List.mem_cons_of_mem _ hb.1, hb.2⟩
    · rcases ih _ _ h with ha | hb
      · exact Or.inl ha
      · exact Or.inr ⟨List.mem_cons_of_mem _ hb.1, hb.2⟩
    · rcases List.mem_append.mp h with ha | hb
      · exact Or.inl ha
      · have hr : r = mem := by simpa using hb
        exact Or.inr ⟨by rw [hr]; exact List.mem_cons_self mem rest,
          by rw [hr]; exact h1⟩
    · rcases ih _ _ h with ha | hb
      · rcases List.mem_append.mp ha with hc | hd
        · exact Or.inl hc
        · have hr : r = mem := by simpa using hd
          exact Or.inr ⟨by rw [hr]; exact List.mem_cons_self mem rest, by rw [hr]; exact h1⟩
      · exact Or.inr ⟨List.mem_cons_of_mem _ hb.1, hb.2⟩
    · exact Or.inl h
    · rcases ih _ _ h with ha | hb
      · exact Or.inl ha
      · exact Or.inr ⟨List.mem_cons_of_mem _ hb.1, hb.2⟩

theorem mem_render_valid_memories (cfg : SocialMemoryConfig) (s : SocialData)
    (now : Int) (m : UserMemory) (h : m ∈ render_valid_memories cfg s now) :
    m ∈ s.memories.map Prod.snd ∧ ¬(now > m.expires_at) := by
  unfold render_valid_memories sortMems at h
  have h1 := mem_pySliceTo _ _ _ h
  rw [List.mem_mergeSort] at h1
  have h2 := List.mem_filter.mp h1
  refine ⟨h2.1, ?_⟩
  have h3 := h2.2
  simp only [UserMemory.is_expired, Bool.and_eq_true, Bool.not_eq_true',
    decide_eq_false_iff_not] at h3
  exact h3.1

theorem summary_by_type_skips_expired (pre post : List (String × UserMemory))
    (k : String) (m : UserMemory) (now : Int) (h : m.expires_at < now) :
    summary_by_type (pre ++ (k, m) :: post) now = summary_by_type (pre ++ post) now := by
  unfold summary_by_type
  rw [List.foldl_append, List.foldl_append, List.foldl_cons, if_neg h.not_le]

/-! ## C3: lazy expiry -/

/-- **C3 (amended)** — a record with `expires_at < now` is excluded from
the records selected by `queryMemory`, from the records collected by
`searchMemory`, from the per-type counts of `getUserSummary` and from
the memory section of `renderContext`; but the `total_memories` count of
`getUserSummary` is the raw store size, which still counts the expired
record (see the counterexample). -/
theorem C3_expiry_amended (cfg : SocialMemoryConfig) (s : SocialData) (now : Int)
    (k : String) (m : UserMemory) (pre post : List (String × UserMemory))
    (hsplit : s.memories = pre ++ (k, m) :: post) (hexp : m.expires_at < now)
    (mt : Option (List String)) (minImp lim : Int) (kw : String) :
    m ∉ query_results s mt minImp now
    ∧ m ∉ search_loop now mt kw lim (s.memories.map Prod.snd) []
    ∧ summary_by_type s.memories now = summary_by_type (pre ++ post) now
    ∧ m ∉ render_valid_memories cfg s now
    ∧ (get_user_summary s now).total_memories = (pre ++ post).length + 1 := by
  refine ⟨?_, ?_, ?_, ?_, ?_⟩
  · intro h
    exact (mem_query_results s mt minImp now m h).2 hexp
  · intro h
    rcases mem_search_loop now mt kw lim _ _ m h with ha | hb
    · simp at ha
    · exact hb.2 hexp
  · rw [hsplit]
    exact summary_by_type_skips_expired pre post k m now hexp
  · intro h
    exact (mem_render_valid_memories cfg s now m h).2 hexp
  · show s.memories.length = _
    rw [hsplit]
    simp
    omega

/-- **C3 (counterexample)** — a store holding exactly one record, which
is expired at time 101: the claim as stated would make `getUserSummary`'s
total count 0, but the code reports `len(memories)` = 1. -/
theorem C3_expiry_cex :
    cexMem.expires_at < 101 ∧ (get_user_summary cexState 101).total_memories = 1 := by
  decide

/-- Witness: amended C3 at the concrete expired store. -/
theorem C3_expiry_witness :
    cexMem ∉ query_results cexState none 0 101
    ∧ (get_user_summary cexState 101).total_memories =
        (([] : List (String × UserMemory)) ++ []).length + 1 := by
  have h := C3_expiry_amended {} cexState 101 "m1" cexMem [] [] (by rfl) (by decide)
    none 0 20 "q"
  exact ⟨h.1, h.2.2.2.2⟩

/-! ## C4: upsert deduplication -/

theorem record_user_memory_merged_eq (cfg : SocialMemoryConfig) (s : SocialData)
    (mtype content : String) (imp : Int) (tags : Option (List String))
    (ck fid : String) (now : Int) (m : UserMemory)
    (h : findByContent s.memories content = some m) :
    record_user_memory cfg s mtype content imp tags ck fid now
      = ({ s with memories := updateFirstContent s.memories content imp },
         { memory_id := m.memory_id, merged := true }) := by
  simp only [record_user_memory, h]

theorem record_user_memory_fresh_eq (cfg : SocialMemoryConfig) (s : SocialData)
    (mtype content : String) (imp : Int) (tags : Option (List String))
    (ck fid : String) (now : Int)
    (h : findByContent s.memories content = none) :
    record_user_memory cfg s mtype content imp tags ck fid now
      = ({ s with memories := alistInsert s.memories fid (UserMemory.create fid mtype content ck imp cfg.RETENTION_DAYS tags now) },
         { memory_id := fid, merged := false }) := by
  simp only [record_user_memory, h]

theorem record_user_memory_created (cfg : SocialMemoryConfig) (s : SocialData)
    (mtype content : String) (imp : Int) (tags : Option (List String))
    (ck fid : String) (now : Int)
    (h : findByContent s.memories content = none)
    (hfid : alistContains s.memories fid = false) :
    (record_user_memory cfg s mtype content imp tags ck fid now).1.memories
      = s.memories ++
        [(fid, UserMemory.create fid mtype content ck imp cfg.RETENTION_DAYS tags now)] := by
  rw [record_user_memory_fresh_eq cfg s mtype content imp tags ck fid now h]
  exact alistInsert_of_not_contains _ _ _ hfid

/-- **C4** — two `recordMemory` calls with identical content never leave
two records: the first creates, the second merges and returns the same
memory id; with a strictly greater importance the second call raises the
stored record's importance to the new value, with a lower or equal one
it leaves the stored state unchanged. -/
theorem C4_upsert_dedupes (cfg : SocialMemoryConfig) (s : SocialData)
    (mt1 mt2 content : String) (imp1 imp2 : Int)
    (tags1 tags2 : Option (List String)) (ck1 ck2 fid1 fid2 : String)
    (now1 now2 : Int)
    (h : findByContent s.memories content = none)
    (hfid : alistContains s.memories fid1 = false) :
    (record_user_memory cfg s mt1 content imp1 tags1 ck1 fid1 now1).2.merged = false
    ∧ (record_user_memory cfg
        (record_user_memory cfg s mt1 content imp1 tags1 ck1 fid1 now1).1
        mt2 content imp2 tags2 ck2 fid2 now2).2.merged = true
    ∧ (record_user_memory cfg
        (record_user_memory cfg s mt1 content imp1 tags1 ck1 fid1 now1).1
        mt2 content imp2 tags2 ck2 fid2 now2).2.memory_id
        = (record_user_memory cfg s mt1 content imp1 tags1 ck1 fid1 now1).2.memory_id
    ∧ (record_user_memory cfg
        (record_user_memory cfg s mt1 content imp1 tags1 ck1 fid1 now1).1
        mt2 content imp2 tags2 ck2 fid2 now2).1.memories.length
        = (record_user_memory cfg s mt1 content imp1 tags1 ck1 fid1 now1).1.memories.length
    ∧ ((UserMemory.create fid1 mt1 content ck1 imp1 cfg.RETENTION_DAYS tags1
          now1).importance < imp2 →
        findByContent (record_user_memory cfg
            (record_user_memory cfg s mt1 content imp1 tags1 ck1 fid1 now1).1
            mt2 content imp2 tags2 ck2 fid2 now2).1.memories content
          = some { UserMemory.create fid1 mt1 content ck1 imp1 cfg.RETENTION_DAYS tags1
              now1 with importance := imp2 })
    ∧ (imp2 ≤ (UserMemory.create fid1 mt1 content ck1 imp1 cfg.RETENTION_DAYS tags1
          now1).importance →
        (record_user_memory cfg
            (record_user_memory cfg s mt1 content imp1 tags1 ck1 fid1 now1).1
            mt2 content imp2 tags2 ck2 fid2 now2).1
          = (record_user_memory cfg s mt1 content imp1 tags1 ck1 fid1 now1).1) := by
  have hmem1 := record_user_memory_created cfg s mt1 content imp1 tags1 ck1 fid1 now1
    h hfid
  have hfind1 : findByContent
      (record_user_memory cfg s mt1 content imp1 tags1 ck1 fid1 now1).1.memories content
      = some (UserMemory.create fid1 mt1 content ck1 imp1 cfg.RETENTION_DAYS tags1
          now1) := by
    rw [hmem1, findByContent_append _ _ _ h, findByContent_cons,
      if_pos (show (UserMemory.create fid1 mt1 content ck1 imp1 cfg.RETENTION_DAYS tags1
        now1).content = content from rfl)]
  have heq2 := record_user_memory_merged_eq cfg
    (record_user_memory cfg s mt1 content imp1 tags1 ck1 fid1 now1).1
    mt2 content imp2 tags2 ck2 fid2 now2 _ hfind1
  have heq1 := record_user_memory_fresh_eq cfg s mt1 content imp1 tags1 ck1 fid1 now1 h
  refine ⟨?_, ?_, ?_, ?_, ?_, ?_⟩
  · rw [heq1]
  · rw [heq2]
  · rw [heq2, heq1]
    rfl
  · rw [heq2]
    exact updateFirstContent_length _ _ _
  · intro hlt
    rw [heq2]
    show findByContent (updateFirstContent
      (record_user_memory cfg s mt1 content imp1 tags1 ck1 fid1 now1).1.memories
      content imp2) content = _
    rw [findByContent_updateFirstContent _ _ _ _ hfind1, if_pos (by omega)]
  · intro hle
    rw [heq2]
    show ({ (record_user_memory cfg s mt1 content imp1 tags1 ck1 fid1 now1).1 with
      memories := updateFirstContent
        (record_user_memory cfg s mt1 content imp1 tags1 ck1 fid1 now1).1.memories
        content imp2 } : SocialData) = _
    rw [updateFirstContent_of_le _ _ _ _ hfind1 hle]

/-- First call (creation) of the C4 witness scenario. -/
def demoMemCall1 : SocialData × RecordMemoryResult :=
  record_user_memory {} demoState "preference" "tea" 3 none "ck" "id1" 0

/-- Second call (merge, higher importance) of the C4 witness scenario. -/
def demoMemCall2 : SocialData × RecordMemoryResult :=
  record_user_memory {} demoMemCall1.1 "preference" "tea" 8 none "ck" "id2" 5

/-- Witness: C4 at the spec's "likes tea" scenario (importance 3 then 8). -/
theorem C4_upsert_dedupes_witness :
    demoMemCall1.2.merged = false ∧ demoMemCall2.2.merged = true
    ∧ demoMemCall2.2.memory_id = demoMemCall1.2.memory_id
    ∧ findByContent demoMemCall2.1.memories "tea"
        = some { UserMemory.create "id1" "preference" "tea" "ck" 3
            ({} : SocialMemoryConfig).RETENTION_DAYS none 0 with importance := 8 } := by
  have h := C4_upsert_dedupes {} demoState "preference" "preference" "tea" 3 8 none none
    "ck" "ck" "id1" "id2" 0 5 (by decide) (by decide)
  exact ⟨h.1, h.2.1, h.2.2.1, h.2.2.2.2.1 (by decide)⟩

/-! ## C10: the duplicate scan ignores expiry -/

/-- **C10** — the duplicate-content scan of `recordMemory` does not check
expiry: merging onto an already-expired record returns its id with the
merged outcome, creates nothing, leaves `created_at` / `expires_at`
untouched, and the content stays absent from `queryMemory` and
`searchMemory` at the same instant. -/
theorem C10_merge_ignores_expiry (cfg : SocialMemoryConfig) (s : SocialData)
    (mtype content : String) (imp : Int) (tags : Option (List String))
    (ck fid : String) (now : Int) (m : UserMemory) (mt : Option (List String))
    (minImp lim : Int) (kw : String)
    (hfind : findByContent s.memories content = some m)
    (hall : ∀ m0 ∈ s.memories.map Prod.snd, m0.content = content →
      m0.expires_at < now) :
    (record_user_memory cfg s mtype content imp tags ck fid now).2.merged = true
    ∧ (record_user_memory cfg s mtype content imp tags ck fid now).2.memory_id
        = m.memory_id
    ∧ (record_user_memory cfg s mtype content imp tags ck fid now).1.memories.length
        = s.memories.length
    ∧ (findByContent
          (record_user_memory cfg s mtype content imp tags ck fid now).1.memories
          content).map (fun mm => (mm.created_at, mm.expires_at))
        = some (m.created_at, m.expires_at)
    ∧ (∀ item ∈ query_user_memory
          (record_user_memory cfg s mtype content imp tags ck fid now).1 mt minImp lim
          now, item.content ≠ content)
    ∧ (∀ item ∈ search_user_memory
          (record_user_memory cfg s mtype content imp tags ck fid now).1 kw mt lim now,
        item.content ≠ content) := by
  have heq := record_user_memory_merged_eq cfg s mtype content imp tags ck fid now m
    hfind
  refine ⟨?_, ?_, ?_, ?_, ?_, ?_⟩
  · rw [heq]
  · rw [heq]
  · rw [heq]
    exact updateFirstContent_length _ _ _
  · rw [heq]
    show (findByContent (updateFirstContent s.memories content imp) content).map _ = _
    rw [findByContent_updateFirstContent _ _ _ _ hfind]
    split <;> rfl
  · intro item hitem hcontent
    simp only [query_user_memory, List.mem_map] at hitem
    obtain ⟨r, hr, hitem⟩ := hitem
    have hrq := mem_query_results _ _ _ _ _ (mem_pySliceTo _ _ _ hr)
    have hrc : r.content = content := by rw [← hitem] at hcontent; exact hcontent
    rw [heq] at hrq
    obtain ⟨m0, hm0, _, hc0, _, he0⟩ := mem_updateFirstContent _ _ _ _ hrq.1
    exact hrq.2 (he0 ▸ hall m0 hm0 (by rw [← hc0, hrc]))
  · intro item hitem hcontent
    simp only [search_user_memory, List.mem_map] at hitem
    obtain ⟨r, hr, hitem⟩ := hitem
    have hrc : r.content = content := by rw [← hitem] at hcontent; exact hcontent
    rw [heq] at hr
    rcases mem_search_loop now mt kw lim _ _ r hr with ha | hb
    · simp at ha
    · obtain ⟨m0, hm0, _, hc0, _, he0⟩ := mem_updateFirstContent _ _ _ _ hb.1
      exact hb.2 (he0 ▸ hall m0 hm0 (by rw [← hc0, hrc]))

/-- Witness: C10 at the concrete expired store (content "x", expired at
time 101). -/
theorem C10_merge_ignores_expiry_witness :
    (record_user_memory {} cexState "preference" "x" 2 none "ck" "id9" 101).2.merged
      = true
    ∧ (record_user_memory {} cexState "preference" "x" 2 none "ck" "id9"
        101).2.memory_id = cexMem.memory_id
    ∧ (record_user_memory {} cexState "preference" "x" 2 none "ck" "id9"
        101).1.memories.length = cexState.memories.length
    ∧ (findByContent
        (record_user_memory {} cexState "preference" "x" 2 none "ck" "id9"
          101).1.memories "x").map (fun mm => (mm.created_at, mm.expires_at))
        = some (cexMem.created_at, cexMem.expires_at) := by
  have h := C10_merge_ignores_expiry {} cexState "preference" "x" 2 none "ck" "id9" 101
    cexMem none 0 20 "x" (by decide) (by decide)
  exact ⟨h.1, h.2.1, h.2.2.1, h.2.2.2.1⟩

/-! ## Lemmas about the bond system -/

theorem evalCondition_set_bonds (aff : UserAffection) (b : List (String × BondStatus))
    (cond : String) : evalCondition { aff with bonds := b } cond = evalCondition aff cond :=
  rfl

theorem bond_progress_set_bonds (aff : UserAffection) (b : List (String × BondStatus))
    (cond : String) : bond_progress { aff with bonds := b } cond = bond_progress aff cond :=
  rfl

theorem ensure_bond_shape (aff : UserAffection) (bid : String) :
    ∃ b, ensure_bond aff bid = { aff with bonds := b } := by
  unfold ensure_bond
  split <;> exact ⟨_, rfl⟩

theorem ensure_bond_lookup_self (aff : UserAffection) (bid : String) :
    alistLookup (ensure_bond aff bid).bonds bid
      = some ((alistLookup aff.bonds bid).getD (BondStatus.create bid)) := by
  unfold ensure_bond
  cases hlk : alistLookup aff.bonds bid with
  | none =>
    rw [if_neg (by rw [alistContains_eq_isSome, hlk]; simp)]
    show alistLookup (alistInsert aff.bonds bid (BondStatus.create bid)) bid = _
    rw [alistLookup_insert_self]
    rfl
  | some st =>
    rw [if_pos (by rw [alistContains_eq_isSome, hlk]; rfl), hlk]
    rfl

theorem ensure_bond_lookup_ne (aff : UserAffection) (b bid : String) (h : b ≠ bid) :
    alistLookup (ensure_bond aff b).bonds bid = alistLookup aff.bonds bid := by
  unfold ensure_bond
  split
  · rfl
  · show alistLookup (alistInsert aff.bonds b (BondStatus.create b)) bid = _
    exact alistLookup_insert_ne _ _ _ _ h

theorem ensure_bond_lookup_preserved (aff : UserAffection) (b bid : String)
    (st : BondStatus) (h : alistLookup aff.bonds bid = some st) :
    alistLookup (ensure_bond aff b).bonds bid = some st := by
  by_cases hbb : b = bid
  · subst hbb
    rw [ensure_bond_lookup_self, h]
    rfl
  · rw [ensure_bond_lookup_ne aff b bid hbb]
    exact h

theorem bond_step_fst_shape (now : Int) (bid cond : String) (aff : UserAffection)
    (u : List String) :
    ∃ b, (bond_step now bid cond aff u).1 = { aff with bonds := b } := by
  simp only [bond_step, ensure_bond]
  split_ifs <;> exact ⟨_, rfl⟩

/-- After one `bond_step` on its own bond, the unlocked flag is the old
flag or the condition's value on the current ledger fields. -/
theorem bond_step_unlocked_self (now : Int) (bid cond : String) (aff : UserAffection)
    (u : List String) :
    bondUnlocked (bond_step now bid cond aff u).1 bid
      = (bondUnlocked aff bid || evalCondition aff cond) := by
  obtain ⟨eb, heb⟩ := ensure_bond_shape aff bid
  have hev : evalCondition (ensure_bond aff bid) cond = evalCondition aff cond := by
    rw [heb, evalCondition_set_bonds]
  have hlk := ensure_bond_lookup_self aff bid
  unfold bond_step
  simp only []
  cases hst : alistLookup aff.bonds bid with
  | none =>
    rw [hst] at hlk
    have hun : bondUnlocked aff bid = false := by
      unfold bondUnlocked
      rw [hst]
      rfl
    rw [hun]
    rw [show ((alistLookup (ensure_bond aff bid).bonds bid).getD
      (BondStatus.create bid)) = BondStatus.create bid by rw [hlk]; rfl]
    rw [if_neg (by simp [BondStatus.create])]
    rw [hev]
    cases hc : evalCondition aff cond with
    | true =>
      rw [if_pos rfl]
      unfold bondUnlocked
      show ((alistLookup (alistInsert (ensure_bond aff bid).bonds bid _) bid).map _).getD
        _ = _
      rw [alistLookup_insert_self]
      rfl
    | false =>
      rw [if_neg (by simp)]
      unfold bondUnlocked
      rw [hlk]
      rfl
  | some st =>
    rw [hst] at hlk
    have hun : bondUnlocked aff bid = st.unlocked := by
      unfold bondUnlocked
      rw [hst]
      rfl
    rw [hun]
    rw [show ((alistLookup (ensure_bond aff bid).bonds bid).getD
      (BondStatus.create bid)) = st by rw [hlk]; rfl]
    cases hu : st.unlocked with
    | true =>
      rw [if_pos rfl]
      unfold bondUnlocked
      rw [hlk]
      simp [hu]
    | false =>
      rw [if_neg (by simp)]
      rw [hev]
      cases hc : evalCondition aff cond with
      | true =>
        rw [if_pos rfl]
        unfold bondUnlocked
        show ((alistLookup (alistInsert (ensure_bond aff bid).bonds bid _) bid).map
          _).getD _ = _
        rw [alistLookup_insert_self]
        rfl
      | false =>
        rw [if_neg (by simp)]
        unfold bondUnlocked
        rw [hlk]
        simp [hu]

/-- A `bond_step` on a different bond does not change this bond's
unlocked flag. -/
theorem bond_step_unlocked_ne (now : Int) (b cond bid : String) (aff : UserAffection)
    (u : List String) (h : b ≠ bid) :
    bondUnlocked (bond_step now b cond aff u).1 bid = bondUnlocked aff bid := by
  unfold bond_step
  simp only []
  split_ifs
  · unfold bondUnlocked
    rw [ensure_bond_lookup_ne aff b bid h]
  · unfold bondUnlocked
    show ((alistLookup (alistInsert (ensure_bond aff b).bonds b _) bid).map _).getD _ = _
    rw [alistLookup_insert_ne _ _ _ _ h, ensure_bond_lookup_ne aff b bid h]
  · unfold bondUnlocked
    rw [ensure_bond_lookup_ne aff b bid h]

/-- A `bond_step` never clears an unlocked flag (any bond). -/
theorem bond_step_unlocked_mono (now : Int) (b cond bid : String) (aff : UserAffection)
    (u : List String) (h : bondUnlocked aff bid = true) :
    bondUnlocked (bond_step now b cond aff u).1 bid = true := by
  by_cases hbb : b = bid
  · subst hbb
    rw [bond_step_unlocked_self, h]
    rfl
  · rw [bond_step_unlocked_ne now b cond bid aff u hbb]
    exact h

/-- A `bond_step` does not alter the status entry of a different bond. -/
theorem bond_step_lookup_ne (now : Int) (b cond bid : String) (aff : UserAffection)
    (u : List String) (h : b ≠ bid) :
    alistLookup (bond_step now b cond aff u).1.bonds bid = alistLookup aff.bonds bid := by
  unfold bond_step
  simp only []
  split_ifs
  · rw [ensure_bond_lookup_ne aff b bid h]
  · show alistLookup (alistInsert (ensure_bond aff b).bonds b _) bid = _
    rw [alistLookup_insert_ne _ _ _ _ h, ensure_bond_lookup_ne aff b bid h]
  · rw [ensure_bond_lookup_ne aff b bid h]

theorem bond_loop_unlocked_mono (now : Int) (defs : List (String × String × String)) :
    ∀ (aff : UserAffection) (u : List String) (bid : String),
      bondUnlocked aff bid = true →
      bondUnlocked (bond_loop now defs aff u).1 bid = true := by
  induction defs with
  | nil => exact fun aff u bid h => h
  | cons d rest ih =>
    intro aff u bid h
    obtain ⟨b, nm, cond⟩ := d
    exact ih _ _ _ (bond_step_unlocked_mono now b cond bid aff u h)

theorem bond_loop_unlocked_of_not_mem (now : Int)
    (defs : List (String × String × String)) (bid : String)
    (hnm : ∀ d ∈ defs, d.1 ≠ bid) :
    ∀ (aff : UserAffection) (u : List String),
      bondUnlocked (bond_loop now defs aff u).1 bid = bondUnlocked aff bid := by
  induction defs with
  | nil => exact fun aff u => rfl
  | cons d rest ih =>
    intro aff u
    obtain ⟨b, nm, cond⟩ := d
    have hb : b ≠ bid := hnm (b, nm, cond) (List.mem_cons_self _ _)
    rw [show bond_loop now ((b, nm, cond) :: rest) aff u
      = bond_loop now rest (bond_step now b cond aff u).1 (bond_step now b cond aff u).2
      from rfl]
    rw [ih (fun d hd => hnm d (List.mem_cons_of_mem _ hd)) _ _]
    exact bond_step_unlocked_ne now b cond bid aff u hb

/-- Characterization of one pass of the whole catalog loop on a specific
bond: the resulting unlocked flag is the old flag or the bond's
condition evaluated on the (loop-invariant) ledger fields. -/
theorem bond_loop_unlocked_char (now : Int)
    (pre post : List (String × String × String)) (bid nm cond : String)
    (hpre : ∀ d ∈ pre, d.1 ≠ bid) (hpost : ∀ d ∈ post, d.1 ≠ bid) :
    ∀ (aff : UserAffection) (u : List String),
      bondUnlocked (bond_loop now (pre ++ (bid, nm, cond) :: post) aff u).1 bid
        = (bondUnlocked aff bid || evalCondition aff cond) := by
  induction pre with
  | nil =>
    intro aff u
    rw [List.nil_append]
    rw [show bond_loop now ((bid, nm, cond) :: post) aff u
      = bond_loop now post (bond_step now bid cond aff u).1
          (bond_step now bid cond aff u).2
      from rfl]
    rw [bond_loop_unlocked_of_not_mem now post bid hpost _ _]
    exact bond_step_unlocked_self now bid cond aff u
  | cons d pre2 ih =>
    intro aff u
    obtain ⟨b, nm2, cond2⟩ := d
    have hb : b ≠ bid := hpre (b, nm2, cond2) (List.mem_cons_self _ _)
    rw [List.cons_append]
    rw [show bond_loop now ((b, nm2, cond2) :: (pre2 ++ (bid, nm, cond) :: post)) aff u
      = bond_loop now (pre2 ++ (bid, nm, cond) :: post)
          (bond_step now b cond2 aff u).1 (bond_step now b cond2 aff u).2
      from rfl]
    rw [ih (fun d hd => hpre d (List.mem_cons_of_mem _ hd)) _ _]
    rw [bond_step_unlocked_ne now b cond2 bid aff u hb]
    obtain ⟨eb, heb⟩ := bond_step_fst_shape now b cond2 aff u
    rw [heb, evalCondition_set_bonds]


/-! ## C6: shared_laugh unlock timing and monotonicity -/

theorem evalCondition_shared_eq (aff : UserAffection) :
    evalCondition aff "event_count_positive >= 5" = decide (aff.total_positive ≥ 5) := rfl

theorem affAfterEvent_bondUnlocked (cfg : SocialMemoryConfig) (s : SocialData)
    (c : AffCall) (bid : String) :
    bondUnlocked (affAfterEvent cfg s c) bid = bondUnlocked s.affection bid := rfl

theorem stepAff_affection_enabled (cfg : SocialMemoryConfig) (s : SocialData)
    (c : AffCall) (hcfg : cfg.ENABLE_BOND_SYSTEM = true) :
    (stepAff cfg s c).affection
      = (bond_loop c.now BOND_DEFINITIONS (affAfterEvent cfg s c) []).1 := by
  simp [stepAff, record_affection_event, affAfterEvent, AffCall.event, hcfg]

theorem stepAff_affection_disabled (cfg : SocialMemoryConfig) (s : SocialData)
    (c : AffCall) (hcfg : cfg.ENABLE_BOND_SYSTEM = false) :
    (stepAff cfg s c).affection = affAfterEvent cfg s c := by
  simp [stepAff, record_affection_event, affAfterEvent, AffCall.event, hcfg]

theorem stepAff_sharedUnlocked (cfg : SocialMemoryConfig)
    (hcfg : cfg.ENABLE_BOND_SYSTEM = true) (s : SocialData) (c : AffCall) :
    sharedUnlocked (stepAff cfg s c)
      = (sharedUnlocked s
          || decide (5 ≤ (stepAff cfg s c).affection.total_positive)) := by
  have haff := stepAff_affection_enabled cfg s c hcfg
  have htot : (stepAff cfg s c).affection.total_positive
      = (affAfterEvent cfg s c).total_positive := by
    rw [haff, bond_loop_total_positive]
  unfold sharedUnlocked
  rw [htot]
  show bondUnlocked (stepAff cfg s c).affection "shared_laugh" = _
  rw [haff]
  rw [show BOND_DEFINITIONS
    = [("first_meet", "初次相遇", "always")]
      ++ ("shared_laugh", "欢笑共鸣", "event_count_positive >= 5")
      :: [("deep_conversation", "深入交流", "event_count_positive >= 10"),
          ("trusted_confidant", "信赖倾诉", "event_count_positive >= 20"),
          ("storm_together", "共渡难关", "event_type_crisis >= 3"),
          ("heart_to_heart", "心心相印", "affection >= 80")] from rfl]
  rw [bond_loop_unlocked_char c.now _ _ "shared_laugh" "欢笑共鸣"
    "event_count_positive >= 5" (by decide) (by decide) (affAfterEvent cfg s c) []]
  rw [affAfterEvent_bondUnlocked, evalCondition_shared_eq]

theorem stepAff_bondUnlocked_mono (cfg : SocialMemoryConfig) (s : SocialData)
    (c : AffCall) (bid : String) (h : bondUnlocked s.affection bid = true) :
    bondUnlocked (stepAff cfg s c).affection bid = true := by
  cases hB : cfg.ENABLE_BOND_SYSTEM with
  | true =>
    rw [stepAff_affection_enabled cfg s c hB]
    exact bond_loop_unlocked_mono _ _ _ _ _
      ((affAfterEvent_bondUnlocked cfg s c bid).trans h)
  | false =>
    rw [stepAff_affection_disabled cfg s c hB]
    exact (affAfterEvent_bondUnlocked cfg s c bid).trans h

theorem record_user_memory_affection (cfg : SocialMemoryConfig) (s : SocialData)
    (mtype content : String) (imp : Int) (tags : Option (List String))
    (ck fid : String) (now : Int) :
    (record_user_memory cfg s mtype content imp tags ck fid now).1.affection
      = s.affection := by
  rcases h : findByContent s.memories content with _ | m
  · rw [record_user_memory_fresh_eq cfg s mtype content imp tags ck fid now h]
  · rw [record_user_memory_merged_eq cfg s mtype content imp tags ck fid now m h]

theorem runOps_bondUnlocked_mono (cfg : SocialMemoryConfig) :
    ∀ (ops : List SocialOp) (s : SocialData) (bid : String),
      bondUnlocked s.affection bid = true →
      bondUnlocked (runOps cfg s ops).affection bid = true := by
  intro ops
  induction ops with
  | nil => exact fun s bid h => h
  | cons op rest ih =>
    intro s bid h
    show bondUnlocked (runOps cfg (stepOp cfg s op) rest).affection bid = true
    apply ih
    cases op with
    | affEvent c => exact stepAff_bondUnlocked_mono cfg s c bid h
    | userMem mtype content imp tags ck fid now =>
      show bondUnlocked
        (record_user_memory cfg s mtype content imp tags ck fid now).1.affection bid
        = true
      rw [record_user_memory_affection]
      exact h

theorem runAff_shared_iff (cfg : SocialMemoryConfig)
    (hcfg : cfg.ENABLE_BOND_SYSTEM = true) (s : SocialData)
    (hs : sharedUnlocked s = false) (cs : List AffCall) :
    ∀ k, k < cs.length →
      (sharedUnlocked (runAff cfg s (cs.take (k+1))) = true
        ↔ 5 ≤ (runAff cfg s (cs.take (k+1))).affection.total_positive) := by
  intro k
  induction k with
  | zero =>
    intro hk
    rw [runAff_take_succ cfg s cs 0 hk]
    rw [show runAff cfg s (cs.take 0) = s from rfl]
    rw [stepAff_sharedUnlocked cfg hcfg s _, hs]
    simp [decide_eq_true_eq]
  | succ k ihk =>
    intro hk
    have hk2 : k < cs.length := Nat.lt_of_succ_lt hk
    have ih := ihk hk2
    rw [runAff_take_succ cfg s cs (k+1) hk]
    rw [stepAff_sharedUnlocked cfg hcfg (runAff cfg s (cs.take (k+1))) _]
    have hmono : (runAff cfg s (cs.take (k+1))).affection.total_positive
        ≤ (stepAff cfg (runAff cfg s (cs.take (k+1)))
            (cs.get ⟨k+1, hk⟩)).affection.total_positive := by
      rw [stepAff_total_positive]
      split <;> omega
    cases hU : sharedUnlocked (runAff cfg s (cs.take (k+1))) with
    | true =>
      have h5 := ih.mp hU
      simp only [Bool.true_or]
      exact ⟨fun _ => by omega, fun _ => by trivial⟩
    | false =>
      simp only [Bool.false_or]
      exact ⟨fun h => of_decide_eq_true h, fun h => decide_eq_true h⟩

/-- **C6** — with the bond system enabled, starting from a profile whose
shared_laugh bond is still locked (or absent), after each
`recordAffectionEvent` call the shared_laugh bond is unlocked exactly
when total_positive has reached 5 (total_positive never decreases, so
the transition happens at the first such call); and once any bond's
unlocked flag is true, no subsequent state-mutating operation
(`recordAffectionEvent` or `recordMemory` — all other operations never
save) ever clears it. -/
theorem C6_shared_laugh_monotone (cfg : SocialMemoryConfig)
    (hcfg : cfg.ENABLE_BOND_SYSTEM = true) :
    (∀ (s : SocialData), sharedUnlocked s = false →
      ∀ (cs : List AffCall) (k : Nat), k < cs.length →
        (sharedUnlocked (runAff cfg s (cs.take (k+1))) = true
          ↔ 5 ≤ (runAff cfg s (cs.take (k+1))).affection.total_positive))
    ∧ (∀ (s : SocialData) (ops : List SocialOp) (bid : String),
        bondUnlocked s.affection bid = true →
        bondUnlocked (runOps cfg s ops).affection bid = true) :=
  ⟨fun s hs cs k hk => runAff_shared_iff cfg hcfg s hs cs k hk,
   fun s ops bid h => runOps_bondUnlocked_mono cfg ops s bid h⟩

/-- A profile whose shared_laugh bond is already unlocked. -/
def sUnlockedState : SocialData :=
  { affection :=
      { user_id := "u",
        bonds := [("shared_laugh",
          { bond_id := "shared_laugh", unlocked := true, unlock_time := 50 })] },
    memories := [] }

/-- Witness: C6 at a fresh profile, one +5 call unlocks shared_laugh
(total_positive reaches 5); and an unlocked bond survives a -20 event. -/
theorem C6_shared_laugh_monotone_witness :
    sharedUnlocked (runAff {} demoState ([demoCall].take (0+1))) = true
    ∧ bondUnlocked (runOps {} sUnlockedState
        [SocialOp.affEvent ⟨-20, "negative", "d", none, 200⟩]).affection
        "shared_laugh" = true := by
  have h := C6_shared_laugh_monotone {} (by rfl)
  exact ⟨(h.1 demoState (by decide) [demoCall] 0 (by decide)).mpr (by decide),
    h.2 sUnlockedState [SocialOp.affEvent ⟨-20, "negative", "d", none, 200⟩]
      "shared_laugh" (by decide)⟩


/-! ## C7: bond progress -/

theorem bond_info_loop_cons_eq (b nm cond : String)
    (rest : List (String × String × String)) (aff : UserAffection) :
    bond_info_loop ((b, nm, cond) :: rest) aff
      = ((bond_info_loop rest (ensure_bond aff b)).1,
         ({ bond_id := b, name := nm,
            unlocked := ((alistLookup (ensure_bond aff b).bonds b).getD
              (BondStatus.create b)).unlocked,
            progress := bond_progress (ensure_bond aff b) cond } : BondInfoEntry)
           :: (bond_info_loop rest (ensure_bond aff b)).2) := rfl

theorem bond_info_loop_entries (defs : List (String × String × String)) :
    ∀ (aff : UserAffection), ∀ e ∈ (bond_info_loop defs aff).2,
      ∃ d ∈ defs, e.bond_id = d.1 ∧ e.progress = bond_progress aff d.2.2 := by
  induction defs with
  | nil =>
    intro aff e he
    simp [bond_info_loop] at he
  | cons d rest ih =>
    intro aff e he
    obtain ⟨b, nm, cond⟩ := d
    rw [bond_info_loop_cons_eq] at he
    obtain ⟨eb, heb⟩ := ensure_bond_shape aff b
    rcases List.mem_cons.mp he with h1 | h1
    · refine ⟨(b, nm, cond), List.mem_cons_self _ _, ?_, ?_⟩
      · rw [h1]
      · rw [h1]
        show bond_progress (ensure_bond aff b) cond = _
        rw [heb, bond_progress_set_bonds]
    · obtain ⟨d2, hd2, hbid, hprog⟩ := ih (ensure_bond aff b) e h1
      refine ⟨d2, List.mem_cons_of_mem _ hd2, hbid, ?_⟩
      rw [hprog, heb, bond_progress_set_bonds]

theorem bond_info_loop_fst_shape (defs : List (String × String × String)) :
    ∀ (aff : UserAffection),
      ∃ b, (bond_info_loop defs aff).1 = { aff with bonds := b } := by
  induction defs with
  | nil => exact fun aff => ⟨aff.bonds, rfl⟩
  | cons d rest ih =>
    intro aff
    obtain ⟨b, nm, cond⟩ := d
    rw [bond_info_loop_cons_eq]
    obtain ⟨eb, heb⟩ := ensure_bond_shape aff b
    exact (ih _).imp (fun bb hb => hb.trans (by rw [heb]))

theorem bond_info_loop_lookup_preserved (defs : List (String × String × String)) :
    ∀ (aff : UserAffection) (bid : String) (st : BondStatus),
      alistLookup aff.bonds bid = some st →
      alistLookup (bond_info_loop defs aff).1.bonds bid = some st := by
  induction defs with
  | nil => exact fun aff bid st h => h
  | cons d rest ih =>
    intro aff bid st h
    obtain ⟨b, nm, cond⟩ := d
    rw [bond_info_loop_cons_eq]
    exact ih _ _ _ (ensure_bond_lookup_preserved aff b bid st h)

theorem bond_progress_le_one (aff : UserAffection) (cond : String) :
    bond_progress aff cond ≤ 1 := by
  unfold bond_progress
  split_ifs <;> first | exact le_refl 1 | exact min_le_left _ _ | norm_num

theorem bond_progress_nonneg (aff : UserAffection) (cond : String)
    (hp : 0 ≤ aff.total_positive) (hne : cond ≠ "affection >= 80") :
    0 ≤ bond_progress aff cond := by
  unfold bond_progress
  split_ifs with h1 h2 h3 h4 h5 h6
  · norm_num
  · exact absurd (by simpa using h2) hne
  · exact le_min (by norm_num) (div_nonneg (by exact_mod_cast hp) (by norm_num))
  · exact le_min (by norm_num) (div_nonneg (by exact_mod_cast hp) (by norm_num))
  · exact le_min (by norm_num) (div_nonneg (by exact_mod_cast hp) (by norm_num))
  · exact le_min (by norm_num) (div_nonneg (Nat.cast_nonneg _) (by norm_num))
  · norm_num

theorem bond_progress_heart_iff (aff : UserAffection) :
    0 ≤ bond_progress aff "affection >= 80" ↔ 0 ≤ aff.affection_value := by
  show 0 ≤ min 1 ((aff.affection_value : ℚ) / 80) ↔ _
  rw [le_min_iff]
  constructor
  · intro h
    have h2 := h.2
    rw [le_div_iff₀ (by norm_num : (0:ℚ) < 80), zero_mul] at h2
    exact_mod_cast h2
  · intro h
    exact ⟨by norm_num, div_nonneg (by exact_mod_cast h) (by norm_num)⟩

/-- **C7 (amended)** — every progress fraction reported by `getBondInfo`
is capped at 1 ("always" = 1 exactly); for every bond except
heart_to_heart it is also ≥ 0 (given the invariant total_positive ≥ 0),
but heart_to_heart's progress `min(1, affection_value/80)` is ≥ 0 only
when the affection value is, so a negative affection yields a negative
progress (see the counterexample); computing the report changes no
ledger field, no memory, and no existing bond status — and
`get_bond_info` never saves, so the persisted profile is untouched. -/
theorem C7_progress_amended (s : SocialData)
    (hp : 0 ≤ s.affection.total_positive) :
    (∀ e ∈ (get_bond_info s).2.bonds, e.progress ≤ 1)
    ∧ (∀ e ∈ (get_bond_info s).2.bonds, e.bond_id = "first_meet" → e.progress = 1)
    ∧ (∀ e ∈ (get_bond_info s).2.bonds, e.bond_id ≠ "heart_to_heart" →
        0 ≤ e.progress)
    ∧ (∀ e ∈ (get_bond_info s).2.bonds, e.bond_id = "heart_to_heart" →
        (0 ≤ e.progress ↔ 0 ≤ s.affection.affection_value))
    ∧ (get_bond_info s).1.affection.affection_value = s.affection.affection_value
    ∧ (get_bond_info s).1.affection.total_positive = s.affection.total_positive
    ∧ (get_bond_info s).1.affection.events = s.affection.events
    ∧ (get_bond_info s).1.memories = s.memories
    ∧ (∀ (bid : String) (st : BondStatus),
        alistLookup s.affection.bonds bid = some st →
        alistLookup (get_bond_info s).1.affection.bonds bid = some st) := by
  have hent := bond_info_loop_entries BOND_DEFINITIONS s.affection
  obtain ⟨bb, hbb⟩ := bond_info_loop_fst_shape BOND_DEFINITIONS s.affection
  refine ⟨?_, ?_, ?_, ?_, ?_, ?_, ?_, rfl, ?_⟩
  · intro e he
    obtain ⟨d, hd, _, hprog⟩ := hent e he
    rw [hprog]
    exact bond_progress_le_one _ _
  · intro e he hid
    obtain ⟨d, hd, hbid, hprog⟩ := hent e he
    rw [hid] at hbid
    simp only [BOND_DEFINITIONS, List.mem_cons, List.not_mem_nil, or_false] at hd
    rcases hd with rfl | rfl | rfl | rfl | rfl | rfl <;>
      first
        | (rw [hprog]; rfl)
        | (exact absurd hbid (by decide))
  · intro e he hid
    obtain ⟨d, hd, hbid, hprog⟩ := hent e he
    rw [hbid] at hid
    simp only [BOND_DEFINITIONS, List.mem_cons, List.not_mem_nil, or_false] at hd
    rcases hd with rfl | rfl | rfl | rfl | rfl | rfl <;>
      first
        | (exact absurd rfl hid)
        | (rw [hprog]; exact bond_progress_nonneg _ _ hp (by decide))
  · intro e he hid
    obtain ⟨d, hd, hbid, hprog⟩ := hent e he
    rw [hid] at hbid
    simp only [BOND_DEFINITIONS, List.mem_cons, List.not_mem_nil, or_false] at hd
    rcases hd with rfl | rfl | rfl | rfl | rfl | rfl <;>
      first
        | (rw [hprog]; exact bond_progress_heart_iff s.affection)
        | (exact absurd hbid (by decide))
  · show (bond_info_loop BOND_DEFINITIONS s.affection).1.affection_value = _
    rw [hbb]
  · show (bond_info_loop BOND_DEFINITIONS s.affection).1.total_positive = _
    rw [hbb]
  · show (bond_info_loop BOND_DEFINITIONS s.affection).1.events = _
    rw [hbb]
  · intro bid st h
    exact bond_info_loop_lookup_preserved BOND_DEFINITIONS s.affection bid st h

/-- A profile with affection value -40 (and no bonds yet). -/
def cexNegState : SocialData :=
  { affection := { user_id := "u", affection_value := -40 }, memories := [] }

/-- **C7 (counterexample)** — at affection value -40 the heart_to_heart
entry reported by `get_bond_info` carries progress
`min(1, -40/80) = -1/2`, which is not in [0,1]. -/
theorem C7_progress_cex :
    ((get_bond_info cexNegState).2.bonds.map (fun e => e.progress)).getLast?
      = some (-(1:ℚ)/2)
    ∧ ¬ ((0:ℚ) ≤ -(1:ℚ)/2) := by
  constructor
  · simp [get_bond_info, bond_info_loop, BOND_DEFINITIONS, ensure_bond, bond_progress,
      alistContains, alistInsert, alistLookup, BondStatus.create, cexNegState,
      crisisCount, List.find?, min_def]
    norm_num
  · norm_num

/-- Witness: amended C7 at the concrete negative-affection profile. -/
theorem C7_progress_witness :
    (get_bond_info cexNegState).1.affection.affection_value
      = cexNegState.affection.affection_value :=
  (C7_progress_amended cexNegState (by decide)).2.2.2.2.1

/-! ## C8: the disabled bond system -/

/-- **C8 (amended)** — when ENABLE_BOND_SYSTEM is false,
`recordAffectionEvent` performs no bond evaluation or status creation
(the bonds map is unchanged and no unlock is reported), `recordMemory`
never touches the affection ledger at all, and no operation ever alters
an existing bond status; but `getBondInfo` has no flag check: it still
evaluates every bond and creates in-memory statuses regardless of the
configuration (see the counterexample; those in-memory statuses are
never saved). -/
theorem C8_disabled_amended (cfg : SocialMemoryConfig)
    (hcfg : cfg.ENABLE_BOND_SYSTEM = false) :
    (∀ (s : SocialData) (c : AffCall),
      (stepAff cfg s c).affection.bonds = s.affection.bonds
      ∧ (record_affection_event cfg s c.change c.event_type c.description c.context
          c.now).2.unlocked_bonds = [])
    ∧ (∀ (s : SocialData) (mtype content : String) (imp : Int)
        (tags : Option (List String)) (ck fid : String) (now : Int),
        (record_user_memory cfg s mtype content imp tags ck fid now).1.affection
          = s.affection)
    ∧ (∀ (s : SocialData) (bid : String) (st : BondStatus),
        alistLookup s.affection.bonds bid = some st →
        alistLookup (get_bond_info s).1.affection.bonds bid = some st) := by
  refine ⟨?_, ?_, ?_⟩
  · intro s c
    constructor
    · rw [stepAff_affection_disabled cfg s c hcfg]
      rfl
    · simp [record_affection_event, hcfg]
  · intro s mtype content imp tags ck fid now
    exact record_user_memory_affection cfg s mtype content imp tags ck fid now
  · intro s bid st h
    exact bond_info_loop_lookup_preserved BOND_DEFINITIONS s.affection bid st h

/-- A configuration with the bond system turned off. -/
def cfgDisabled : SocialMemoryConfig := { ENABLE_BOND_SYSTEM := false }

/-- **C8 (counterexample)** — `get_bond_info` takes no account of the
flag (src/plugin.py lines 663-706 have no ENABLE_BOND_SYSTEM check): on
a profile with an empty bonds map it creates all six statuses in the
in-memory profile and returns six evaluated entries, so with
ENABLE_BOND_SYSTEM = false the operation does not skip bond evaluation
or status creation. -/
theorem C8_disabled_cex :
    cfgDisabled.ENABLE_BOND_SYSTEM = false
    ∧ demoState.affection.bonds.length = 0
    ∧ ((get_bond_info demoState).1.affection.bonds).length = 6
    ∧ ((get_bond_info demoState).2.bonds).length = 6 := by decide

/-- Witness: amended C8 at a concrete call with the disabled config. -/
theorem C8_disabled_witness :
    (stepAff cfgDisabled demoState demoCall).affection.bonds
      = demoState.affection.bonds
    ∧ (record_user_memory cfgDisabled demoState "preference" "x" 5 none "ck" "id1"
        0).1.affection = demoState.affection :=
  ⟨((C8_disabled_amended cfgDisabled rfl).1 demoState demoCall).1,
   (C8_disabled_amended cfgDisabled rfl).2.1 demoState "preference" "x" 5 none "ck"
     "id1" 0⟩

end SocialMemory
